import Mathlib

set_option maxRecDepth 100000

/-!
Verification of the FlexDaemonsets resource-allocation and node-coverage
control plane against its specification.

The development shallowly embeds the Go sources:
  * `pkg/utils/resources.go` (`CalculatePodResources`),
  * `pkg/controller/pod_controller.go` (`PodReconciler.Reconcile`,
    `NodeCoverageReconciler.reconcileDaemonSetCoverage`,
    `FlexDaemonSetNodePodReconciler.Reconcile`, `constructPodForFlexDaemonSetNodePod`),
  * the inline-computing admission webhook (`PodMutator.Handle`).

Modelling conventions:
  * Kubernetes `resource.Quantity` values are modelled by their exact value in
    the canonical integer scale the code reads them at: milli-units for cpu
    (`Quantity.MilliValue`) and plain units (bytes) for memory and
    ephemeral-storage (`Quantity.Value`).
  * Go `float64` arithmetic is modelled bit-exactly for finite values in the
    normal range by `roundND` (round to nearest, ties to even, 53-bit
    significand): a float is a pair `(m, e)` denoting `m * 2 ^ e`.
  * `resource.ParseQuantity` of an optional minimum string is modelled by a
    three-valued `MinQuantity` oracle (unset / set-but-malformed / parsed
    value), since string parsing itself is irrelevant to the claims.
  * Store reads are modelled as lookup results passed to the reconcile
    functions; store writes succeed and are returned as effect lists.
-/

namespace FlexDaemonsets

/-! ## Bit-exact model of Go float64 arithmetic on rational inputs

Every number the calculator feeds through float64 is a quotient `n / d` of
integers.  `roundND n d` returns the binary64 value nearest to `n / d`
(ties to even) as a mantissa/exponent pair `(m, k)` denoting `m * 2 ^ k`.
Exponent range is unbounded (no overflow/subnormal handling): all values
arising in the claims are finite and normal. -/

/-- Fuel-driven floor of the base-2 logarithm; `log2floorAux f n` is
`⌊log₂ n⌋` whenever `n ≤ 2 ^ f` and `1 ≤ n`. -/
def log2floorAux : Nat → Nat → Nat
  | 0, _ => 0
  | f + 1, n => if 2 ≤ n then log2floorAux f (n / 2) + 1 else 0

/-- Floor of the base-2 logarithm of a natural number (0 at 0). -/
def log2floor (n : Nat) : Nat := log2floorAux n n

/-- Decides `d * 2 ^ l ≤ n` for a possibly negative exponent `l`
(equivalently `2 ^ l ≤ n / d` for positive `d`), using only integer shifts. -/
def le2pow (l : Int) (d n : Int) : Bool :=
  if 0 ≤ l then d * 2 ^ l.toNat ≤ n else d ≤ n * 2 ^ (-l).toNat

/-- Floor of the base-2 logarithm of the positive rational `n / d`: the first
guess `⌊log₂ n⌋ - ⌊log₂ d⌋` overestimates by at most one, so it is corrected
by one exact comparison. -/
def elog (n d : Int) : Int :=
  let l : Int := (log2floor n.natAbs : Int) - (log2floor d.natAbs : Int)
  if le2pow l d n then l else l - 1

/-- Numerator of `n / d` after scaling by `2 ^ (-k)`. -/
def scaleNum (n k : Int) : Int := if k ≤ 0 then n * 2 ^ (-k).toNat else n

/-- Denominator of `n / d` after scaling by `2 ^ (-k)`. -/
def scaleDen (d k : Int) : Int := if k ≤ 0 then d else d * 2 ^ k.toNat

/-- Round the scaled significand `q + r / d2` (`0 ≤ r < d2`) to the nearest
integer, ties to even. -/
def roundTie (q r d2 : Int) : Int :=
  if 2 * r < d2 then q
  else if d2 < 2 * r then q + 1
  else if q % 2 = 0 then q else q + 1

/-- Round the positive rational `n / d` (`n, d > 0`) to the nearest binary64
value, ties to even; the result `(m, k)` denotes `m * 2 ^ k` with
`2 ^ 52 ≤ m ≤ 2 ^ 53`. -/
def roundNDpos (n d : Int) : Int × Int :=
  let k : Int := elog n d - 52
  (roundTie (scaleNum n k / scaleDen d k) (scaleNum n k % scaleDen d k)
    (scaleDen d k), k)

/-- Round the rational `n / d` (`d > 0`) to the nearest binary64 value. -/
def roundND (n d : Int) : Int × Int :=
  if n = 0 then (0, 0)
  else if n < 0 then
    let p := roundNDpos (-n) d
    (-p.1, p.2)
  else roundNDpos n d

/-- Exact value `m * 2 ^ e` of a float, rewritten as an integer quotient
`(num, den)` with `den > 0` a power of two. -/
def ofDyadic (m e : Int) : Int × Int :=
  if 0 ≤ e then (m * 2 ^ e.toNat, 1) else (m, 2 ^ (-e).toNat)

/-- Correctly rounded float64 multiplication. -/
def fmul (x y : Int × Int) : Int × Int :=
  let nd := ofDyadic (x.1 * y.1) (x.2 + y.2)
  roundND nd.1 nd.2

/-- Correctly rounded float64 division. -/
def fdiv (x y : Int × Int) : Int × Int :=
  let nd := ofDyadic x.1 (x.2 - y.2)
  let n := nd.1
  let d := nd.2 * y.1
  if d < 0 then roundND (-n) (-d) else roundND n d

/-- Go conversion `float64(a)` of an integer (round to nearest, ties to even). -/
def i64f (a : Int) : Int × Int := roundND a 1

/-- Go conversion `int64(x)` of a float64 value: truncation toward zero. -/
def truncF (x : Int × Int) : Int :=
  if 0 ≤ x.2 then x.1 * 2 ^ x.2.toNat else x.1.tdiv (2 ^ (-x.2).toNat)

/-- The percentage computation of `CalculatePodResources`
(`resources.go` lines 48-49, 96-97, 142-143):
`int64(float64(allocatable) * (float64(percentage) / 100.0))`,
in the canonical integer scale of the resource kind. -/
def percentValue (allocatable : Int) (percentage : Int) : Int :=
  truncF (fmul (i64f allocatable) (fdiv (i64f percentage) (i64f 100)))

/-! ## The resource calculator (`pkg/utils/resources.go`) -/

/-- Result of `resource.ParseQuantity` on an optional minimum string field:
the field is the empty string, or set but malformed, or parses to a quantity
with the given canonical integer value. -/
inductive MinQuantity
  | unset
  | invalid
  | parsed (v : Int)
deriving DecidableEq

/-- Spec of a `FlexDaemonsetTemplate`
(`pkg/apis/flexdaemonsets/v1alpha1`, webhook variant file). -/
structure FlexDaemonsetTemplateSpec where
  CPUPercentage : Int
  MemoryPercentage : Int
  StoragePercentage : Int
  MinCPU : MinQuantity
  MinMemory : MinQuantity
  MinStorage : MinQuantity
deriving DecidableEq

/-- Node allocatable quantities, in canonical integer scale
(cpu in milli-units, memory and ephemeral-storage in bytes); `none` when the
resource kind is absent from the allocatable list. -/
structure NodeAllocatable where
  cpu : Option Int
  memory : Option Int
  ephemeralStorage : Option Int
deriving DecidableEq

/-- A `corev1.ResourceList` restricted to the three kinds the calculator
produces; `none` marks absence of the kind from the map. -/
structure ResourceList where
  cpu : Option Int
  memory : Option Int
  ephemeralStorage : Option Int
deriving DecidableEq

/-- The empty resource list. -/
def ResourceList.empty : ResourceList := ⟨none, none, none⟩

/-- One resource kind of `CalculatePodResources` (the cpu / memory / storage
blocks of `resources.go` are identical up to the unit scale): percentage of
the allocatable value when present (fallback to a positive parsed minimum
when absent), floored at the parsed minimum, omitted unless positive;
a set-but-malformed minimum fails the whole calculation. -/
def calcResource (alloc : Option Int) (pct : Int) (minq : MinQuantity) :
    Except Unit (Option Int) :=
  match alloc with
  | none =>
    match minq with
    | .unset => .ok none
    | .invalid => .error ()
    | .parsed m => .ok (if 0 < m then some m else none)
  | some a =>
    let computed := percentValue a pct
    match minq with
    | .invalid => .error ()
    | .parsed m =>
      let final := if computed < m then m else computed
      .ok (if 0 < final then some final else none)
    | .unset => .ok (if 0 < computed then some computed else none)

/-- `utils.CalculatePodResources`: the three kinds in source order
(cpu, then memory, then ephemeral-storage), failing on the first malformed
minimum. -/
def CalculatePodResources (t : FlexDaemonsetTemplateSpec)
    (alloc : NodeAllocatable) : Except Unit ResourceList := do
  let c ← calcResource alloc.cpu t.CPUPercentage t.MinCPU
  let m ← calcResource alloc.memory t.MemoryPercentage t.MinMemory
  let s ← calcResource alloc.ephemeralStorage t.StoragePercentage t.MinStorage
  return ⟨c, m, s⟩

/-- Modelled from the spec: the "final value" of a resource kind named by the
omission rule — the percentage-computed value after the minimum floor when
allocatable is present, the parsed minimum as fallback when allocatable is
absent, and 0 (nothing to request) otherwise. -/
def finalValue (alloc : Option Int) (pct : Int) (minq : MinQuantity) : Int :=
  match alloc, minq with
  | some a, .parsed m => if percentValue a pct < m then m else percentValue a pct
  | some a, _ => percentValue a pct
  | none, .parsed m => m
  | none, _ => 0

/-! ## String-keyed maps (Go `map[string]string`), by association list

Only lookup-level behaviour matters to the claims, so Go map iteration
order is irrelevant; insertion is modelled as erase-then-cons. -/

/-- Association list standing for a Go `map[string]string`. -/
abbrev KVMap := List (String × String)

/-- Map lookup (`m[k]`), first matching key. -/
def KVMap.get : KVMap → String → Option String
  | [], _ => none
  | (k', v) :: rest, k => if k' = k then some v else KVMap.get rest k

/-- Map deletion (Go `delete(m, k)`). -/
def KVMap.erase : KVMap → String → KVMap
  | [], _ => []
  | (k', v) :: rest, k =>
    if k' = k then KVMap.erase rest k else (k', v) :: KVMap.erase rest k

/-- Map insertion with overwrite (`m[k] = v`). -/
def KVMap.insert (m : KVMap) (k v : String) : KVMap := (k, v) :: m.erase k

/-- Insertion that keeps an existing entry
(the `if _, exists := m[k]; !exists` idiom). -/
def KVMap.insertIfAbsent (m : KVMap) (k v : String) : KVMap :=
  if (m.get k).isSome then m else m.insert k v

/-- Whether every selector pair is present in the label map
(`labels.SelectorFromSet` / `client.MatchingLabels` matching). -/
def matchesSelector (sel lbls : KVMap) : Bool :=
  sel.all (fun kv => KVMap.get lbls kv.fst == some kv.snd)

/-! ## Kubernetes objects, restricted to the fields the code reads -/

/-- String constants of the code. -/
def FlexDaemonsetTemplateAnn : String := "flexdaemonsets.xai/resource-template"

/-- Key of the intermediate pod-side annotation. -/
def PodApplyTemplateAnn : String := "flexdaemonsets.xai/apply-template"

/-- Identifying label key for pods managed by the FDNP controller. -/
def LabelManagedBy : String := "flexdaemonsets.xai/managed-by"

/-- Identifying label key naming the owning FDNP CR. -/
def LabelOwnerCR : String := "flexdaemonsets.xai/owner-cr"

/-- Value stored under `LabelManagedBy`. -/
def FlexDaemonSetNodePodControllerName : String := "FlexDaemonSetNodePodController"

/-- `appsv1.SchemeGroupVersion.String()`. -/
def appsV1 : String := "apps/v1"

/-- Owner-reference kind of a DaemonSet. -/
def kindDaemonSet : String := "DaemonSet"

/-- Phase constants of the FDNP controller. -/
def PhasePending : String := "Pending"

/-- Phase while the managed pod is being created. -/
def PhaseCreatingPod : String := "CreatingPod"

/-- Phase once the managed pod is in place. -/
def PhaseActive : String := "Active"

/-- Phase recorded when a genuine DaemonSet pod conflicts. -/
def PhaseConflict : String := "ConflictWithDaemonSet"

/-- Phase on failure. -/
def PhaseFailed : String := "Failed"

/-- Phase while the FDNP is being deleted. -/
def PhaseTerminating : String := "Terminating"

/-- `metav1.OwnerReference`, restricted to the fields the code reads. -/
structure OwnerReference where
  apiVersion : String
  kind : String
  name : String
  uid : Nat
deriving DecidableEq

/-- `corev1.ResourceRequirements` over the modelled resource kinds. -/
structure ResourceRequirements where
  limits : ResourceList
  requests : ResourceList
deriving DecidableEq

/-- A container, restricted to its name and resources. -/
structure Container where
  name : String
  resources : ResourceRequirements
deriving DecidableEq

/-- A pod, restricted to the fields the code reads or writes. -/
structure Pod where
  name : String
  inNamespace : String
  labels : KVMap
  annots : KVMap
  ownerReferences : List OwnerReference
  nodeName : String
  containers : List Container
  initContainers : List Container
  tolerations : List String
  hasAffinity : Bool
  restartPolicy : String
deriving DecidableEq

/-- The pod template held by a DaemonSet spec. -/
structure PodTemplateSpec where
  labels : KVMap
  annots : KVMap
  containers : List Container
  initContainers : List Container
  tolerations : List String
  hasAffinity : Bool
  restartPolicy : String
deriving DecidableEq

/-- An `appsv1.DaemonSet`, restricted to the fields the code reads. -/
structure DaemonSet where
  name : String
  inNamespace : String
  uid : Nat
  generation : Int
  annots : KVMap
  selectorMatchLabels : KVMap
  template : PodTemplateSpec
deriving DecidableEq

/-- A node: schedulability inputs plus allocatable capacity.  Taints are
modelled by their effect strings, the only field the code reads. -/
structure Node where
  name : String
  unschedulable : Bool
  taintEffects : List String
  allocatable : NodeAllocatable
deriving DecidableEq

/-- `FlexDaemonSetNodePodSpec` (`flexdaemonsetnodepod_types.go`). -/
structure FlexDaemonSetNodePodSpec where
  daemonSetName : String
  daemonSetNamespace : String
  nodeName : String
  observedDaemonSetTemplateGeneration : Int
  resources : ResourceRequirements
deriving DecidableEq

/-- A `FlexDaemonSetNodePod` custom resource. -/
structure FlexDaemonSetNodePod where
  name : String
  inNamespace : String
  uid : Nat
  labels : KVMap
  annots : KVMap
  ownerReferences : List OwnerReference
  markedForDeletion : Bool
  spec : FlexDaemonSetNodePodSpec
deriving DecidableEq

/-- Pod lookup by name and namespace (`client.Get`). -/
def podGet (pods : List Pod) (nm ns : String) : Option Pod :=
  pods.find? (fun p => p.name == nm && p.inNamespace == ns)

/-- Pod listing by namespace and label selector
(`client.List` with `InNamespace` and matching labels). -/
def podsMatching (pods : List Pod) (ns : String) (sel : KVMap) : List Pod :=
  pods.filter (fun p => p.inNamespace == ns && matchesSelector sel p.labels)

/-! ## The admission webhook (inline-computing `PodMutator.Handle`) -/

/-- Cluster reads available to the webhook. -/
structure AdmissionEnv where
  getTemplate : String → Option FlexDaemonsetTemplateSpec
  getNode : String → Option Node

/-- Outcome of `Handle`: an admission error, allow-unmodified, or a patch
carrying the mutated pod. -/
inductive AdmissionResponse
  | errored
  | allowed
  | patched (p : Pod)
deriving DecidableEq

/-- Whether some owner reference marks the pod as owned by an `apps/v1`
DaemonSet. -/
def isDaemonSetOwned (pod : Pod) : Bool :=
  pod.ownerReferences.any (fun o => o.apiVersion == appsV1 && o.kind == kindDaemonSet)

/-- Merge the calculated quantities into an existing resource map,
overwriting the calculated kinds and keeping the others. -/
def mergeResources (res target : ResourceList) : ResourceList :=
  { cpu := if res.cpu.isSome then res.cpu else target.cpu
    memory := if res.memory.isSome then res.memory else target.memory
    ephemeralStorage :=
      if res.ephemeralStorage.isSome then res.ephemeralStorage
      else target.ephemeralStorage }

/-- Set requests and limits of every container and init-container to the
calculated values, merging into any existing resource maps
(webhook lines 131-165; the pod-reconciler apply loop is identical). -/
def applyCalculatedResources (res : ResourceList) (pod : Pod) : Pod :=
  { pod with
    containers := pod.containers.map (fun c =>
      { c with resources :=
          { requests := mergeResources res c.resources.requests
            limits := mergeResources res c.resources.limits } })
    initContainers := pod.initContainers.map (fun c =>
      { c with resources :=
          { requests := mergeResources res c.resources.requests
            limits := mergeResources res c.resources.limits } }) }

/-- The inline-computing `PodMutator.Handle`: decode, fast-path non-DaemonSet
pods, read the template annotation from the pod, fetch template and node,
calculate, and patch.  `decoded` is the decoder result; fetch results come
from `env`. -/
def PodMutatorHandle (env : AdmissionEnv) (decoded : Except Unit Pod) :
    AdmissionResponse :=
  match decoded with
  | .error _ => .errored
  | .ok pod =>
    if !isDaemonSetOwned pod then .allowed
    else
      match KVMap.get pod.annots FlexDaemonsetTemplateAnn with
      | none => .allowed
      | some templateName =>
        if templateName = "" then .allowed
        else
          match env.getTemplate templateName with
          | none => .errored
          | some tmpl =>
            if pod.nodeName = "" then .allowed
            else
              match env.getNode pod.nodeName with
              | none => .errored
              | some node =>
                match CalculatePodResources tmpl node.allocatable with
                | .error _ => .errored
                | .ok res =>
                  if res = ResourceList.empty then .allowed
                  else .patched (applyCalculatedResources res pod)

/-! ## The asynchronous pod-side reconciler (`PodReconciler.Reconcile`) -/

/-- Result of a `client.Get`, distinguishing not-found (handled specially by
the code) from any other error. -/
inductive LookupResult (α : Type)
  | found (a : α)
  | notFound
  | errOther
deriving DecidableEq

/-- Cluster reads available to one pod reconcile: the referenced template and
the referenced node. -/
structure PodReconcileEnv where
  template : LookupResult FlexDaemonsetTemplateSpec
  node : LookupResult Node

/-- Outcome of one pod reconcile: error flag, requeue flag, and the pod state
after the pass (patches are assumed to succeed). -/
structure PodReconcileOutcome where
  isErr : Bool
  requeue : Bool
  pod : Pod
deriving DecidableEq

/-- Remove the apply-template annotation from a pod. -/
def removeApplyTemplateAnn (p : Pod) : Pod :=
  { p with annots := p.annots.erase PodApplyTemplateAnn }

/-- `PodReconciler.Reconcile` for an existing pod (`pod_controller.go`
lines 52-192): skip pods without the annotation, requeue until a node is
assigned, strip the annotation from non-DaemonSet pods, silently give up on
a missing template or node, and otherwise apply the calculated resources and
clear the annotation. -/
def PodReconcilerReconcile (pod : Pod) (env : PodReconcileEnv) :
    PodReconcileOutcome :=
  match KVMap.get pod.annots PodApplyTemplateAnn with
  | none => ⟨false, false, pod⟩
  | some templateName =>
    if templateName = "" then ⟨false, false, pod⟩
    else if pod.nodeName = "" then ⟨false, true, pod⟩
    else if !isDaemonSetOwned pod then ⟨false, false, removeApplyTemplateAnn pod⟩
    else
      match env.template with
      | .notFound => ⟨false, false, pod⟩
      | .errOther => ⟨true, false, pod⟩
      | .found tmpl =>
        match env.node with
        | .notFound => ⟨false, false, pod⟩
        | .errOther => ⟨true, false, pod⟩
        | .found node =>
          match CalculatePodResources tmpl node.allocatable with
          | .error _ => ⟨true, false, pod⟩
          | .ok res =>
            if res = ResourceList.empty then ⟨false, false, removeApplyTemplateAnn pod⟩
            else ⟨false, false, removeApplyTemplateAnn (applyCalculatedResources res pod)⟩

/-! ## The FlexDaemonSetNodePod reconciler -/

/-- Cluster state one FDNP reconcile reads: the referenced DaemonSet and the
pod store. -/
structure FdnpCluster where
  ds : Option DaemonSet
  pods : List Pod
deriving DecidableEq

/-- Mutations an FDNP reconcile can issue. -/
inductive FdnpEffect
  | deleteSelf
  | createPod (p : Pod)
deriving DecidableEq

/-- Outcome of one FDNP reconcile: resulting status phase, requeue and error
flags, and the issued mutations. -/
structure FdnpOutcome where
  phase : String
  requeue : Bool
  isErr : Bool
  effects : List FdnpEffect
deriving DecidableEq

/-- `generateManagedPodName`: deterministic name of the managed pod. -/
def generateManagedPodName (fdnp : FlexDaemonSetNodePod) : String :=
  fdnp.name ++ "-pod"

/-- Controller owner reference pointing at an FDNP
(`controllerutil.SetControllerReference`). -/
def fdnpControllerRef (fdnp : FlexDaemonSetNodePod) : OwnerReference :=
  { apiVersion := "flexdaemonsets.xai/v1alpha1"
    kind := "FlexDaemonSetNodePod"
    name := fdnp.name
    uid := fdnp.uid }

/-- `constructPodForFlexDaemonSetNodePod`: deep-copy the DaemonSet pod
template spec, then force name/namespace/owner, add the two identifying
labels and merge the FDNP labels without overwriting, copy annotations from
the template then the FDNP, pin the node, overwrite all resources, drop
affinity, keep tolerations, and default the restart policy. -/
def constructPodForFlexDaemonSetNodePod (fdnp : FlexDaemonSetNodePod)
    (ds : DaemonSet) : Pod :=
  let baseLabels :=
    (KVMap.insert (KVMap.insert [] LabelManagedBy FlexDaemonSetNodePodControllerName)
      LabelOwnerCR fdnp.name)
  { name := generateManagedPodName fdnp
    inNamespace := fdnp.inNamespace
    labels := fdnp.labels.foldl (fun m kv => KVMap.insertIfAbsent m kv.fst kv.snd)
      baseLabels
    annots := fdnp.annots.foldl (fun m kv => KVMap.insert m kv.fst kv.snd)
      (ds.template.annots.foldl (fun m kv => KVMap.insert m kv.fst kv.snd) [])
    ownerReferences := [fdnpControllerRef fdnp]
    nodeName := fdnp.spec.nodeName
    containers := ds.template.containers.map (fun c =>
      { c with resources := fdnp.spec.resources })
    initContainers := ds.template.initContainers.map (fun c =>
      { c with resources := fdnp.spec.resources })
    tolerations := ds.template.tolerations
    hasAffinity := false
    restartPolicy :=
      if ds.template.restartPolicy = "" then "Always" else ds.template.restartPolicy }

/-- Conflict predicate of the FDNP reconciler: a listed pod sits on the FDNP
node and carries an `apps/v1` DaemonSet owner reference with the
DaemonSet's name. -/
def conflictsWith (fdnp : FlexDaemonSetNodePod) (ds : DaemonSet) (p : Pod) : Bool :=
  p.nodeName == fdnp.spec.nodeName &&
    p.ownerReferences.any (fun o =>
      o.apiVersion == appsV1 && o.kind == kindDaemonSet && o.name == ds.name)

/-- `FlexDaemonSetNodePodReconciler.Reconcile` (`pod_controller.go`
lines 602-744): handle deletion, fail on a missing DaemonSet, yield to a
conflicting genuine DaemonSet pod by deleting the FDNP, adopt an existing
owned managed pod, fail on a same-named foreign pod, and otherwise construct
and create the managed pod. -/
def FlexDaemonSetNodePodReconcile (fdnp : FlexDaemonSetNodePod)
    (cluster : FdnpCluster) : FdnpOutcome :=
  if fdnp.markedForDeletion then ⟨PhaseTerminating, false, false, []⟩
  else
    match cluster.ds with
    | none => ⟨PhaseFailed, true, false, []⟩
    | some ds =>
      let dsOwnedPods :=
        podsMatching cluster.pods fdnp.spec.daemonSetNamespace ds.selectorMatchLabels
      match dsOwnedPods.find? (fun p => conflictsWith fdnp ds p) with
      | some _ => ⟨PhaseConflict, false, false, [.deleteSelf]⟩
      | none =>
        match podGet cluster.pods (generateManagedPodName fdnp) fdnp.inNamespace with
        | some managedPod =>
          if managedPod.ownerReferences.any (fun o => o.uid == fdnp.uid) then
            ⟨PhaseActive, false, false, []⟩
          else ⟨PhaseFailed, true, false, []⟩
        | none =>
          ⟨PhaseActive, false, false,
            [.createPod (constructPodForFlexDaemonSetNodePod fdnp ds)]⟩

/-! ## The node-coverage reconciler -/

/-- Store writes the coverage pass can issue, by FDNP name. -/
inductive CoverageEffect
  | created (nm : String)
  | updated (nm : String)
deriving DecidableEq

/-- FDNP lookup by name and namespace (`client.Get`). -/
def fdnpGet : List FlexDaemonSetNodePod → String → String →
    Option FlexDaemonSetNodePod
  | [], _, _ => none
  | f :: rest, nm, ns =>
    if f.name = nm ∧ f.inNamespace = ns then some f else fdnpGet rest nm ns

/-- Replace the FDNP with the same name and namespace (`client.Update`). -/
def fdnpPut (store : List FlexDaemonSetNodePod) (f : FlexDaemonSetNodePod) :
    List FlexDaemonSetNodePod :=
  store.map (fun g =>
    if g.name = f.name ∧ g.inNamespace = f.inNamespace then f else g)

/-- Controller owner reference pointing at a DaemonSet
(`metav1.NewControllerRef(ds, ...WithKind("DaemonSet"))`). -/
def dsControllerRef (ds : DaemonSet) : OwnerReference :=
  { apiVersion := appsV1, kind := kindDaemonSet, name := ds.name, uid := ds.uid }

/-- `isNodeSchedulable`: not marked unschedulable and free of
`NoSchedule` / `NoExecute` taints. -/
def isNodeSchedulable (node : Node) : Bool :=
  !node.unschedulable &&
    node.taintEffects.all (fun t => !(t == "NoSchedule") && !(t == "NoExecute"))

/-- Node names already hosting a selector-matching pod with a node
assignment (`podsByNodeName`). -/
def coveredNodeNames (dsPods : List Pod) : List String :=
  (dsPods.filter (fun p => !(p.nodeName == ""))).map (fun p => p.nodeName)

/-- The FDNP the coverage pass wants for a node. -/
def desiredFdnp (ds : DaemonSet) (node : Node) (res : ResourceRequirements) :
    FlexDaemonSetNodePod :=
  { name := ds.name ++ "-" ++ node.name
    inNamespace := ds.inNamespace
    uid := 0
    labels := []
    annots := []
    ownerReferences := [dsControllerRef ds]
    markedForDeletion := false
    spec :=
      { daemonSetName := ds.name
        daemonSetNamespace := ds.inNamespace
        nodeName := node.name
        observedDaemonSetTemplateGeneration := ds.generation
        resources := res } }

/-- One node of the coverage loop (`pod_controller.go` lines 310-423):
skip unschedulable or covered nodes and calculation failures, create the
FDNP when absent, update it when the stored generation or resources drift
(resetting the owner reference), and leave it untouched otherwise. -/
def coverageNodeStep (ds : DaemonSet) (tmpl : FlexDaemonsetTemplateSpec)
    (covered : List String)
    (acc : List FlexDaemonSetNodePod × List CoverageEffect) (node : Node) :
    List FlexDaemonSetNodePod × List CoverageEffect :=
  if !isNodeSchedulable node then acc
  else if covered.contains node.name then acc
  else
    match CalculatePodResources tmpl node.allocatable with
    | .error _ => acc
    | .ok rl =>
      let res : ResourceRequirements := { limits := rl, requests := rl }
      let fdnpName := ds.name ++ "-" ++ node.name
      match fdnpGet acc.1 fdnpName ds.inNamespace with
      | none =>
        (acc.1 ++ [desiredFdnp ds node res], acc.2 ++ [.created fdnpName])
      | some existing =>
        if existing.spec.observedDaemonSetTemplateGeneration ≠ ds.generation ∨
            existing.spec.resources ≠ res then
          let upd :=
            { existing with
              ownerReferences := [dsControllerRef ds]
              spec :=
                { existing.spec with
                  observedDaemonSetTemplateGeneration := ds.generation
                  resources := res } }
          (fdnpPut acc.1 upd, acc.2 ++ [.updated fdnpName])
        else acc

/-- `NodeCoverageReconciler.reconcileDaemonSetCoverage`: no-op without the
template annotation, abort (`none`) when the template fetch fails, and
otherwise fold the per-node step over all nodes against the covered-node
set computed once from the selector-matching pods. -/
def reconcileDaemonSetCoverage (ds : DaemonSet)
    (tmplLookup : Option FlexDaemonsetTemplateSpec) (nodes : List Node)
    (pods : List Pod) (store : List FlexDaemonSetNodePod) :
    Option (List FlexDaemonSetNodePod × List CoverageEffect) :=
  match KVMap.get ds.annots FlexDaemonsetTemplateAnn with
  | none => some (store, [])
  | some _ =>
    match tmplLookup with
    | none => none
    | some tmpl =>
      let dsPods := podsMatching pods ds.inNamespace ds.selectorMatchLabels
      let covered := coveredNodeNames dsPods
      some (nodes.foldl (coverageNodeStep ds tmpl covered) (store, []))

/-! ## Exactness of the float64 pipeline on small integers -/

theorem log2floorAux_spec : ∀ (f n : Nat), 1 ≤ n → n ≤ 2 ^ f →
    2 ^ log2floorAux f n ≤ n ∧ n < 2 ^ (log2floorAux f n + 1) := by
  intro f
  induction f with
  | zero =>
    intro n h1 h2
    simp only [log2floorAux]
    simp only [pow_zero] at h2 ⊢
    omega
  | succ f ih =>
    intro n h1 h2
    rw [log2floorAux]
    by_cases h : 2 ≤ n
    · rw [if_pos h]
      have hp : 2 ^ (f + 1) = 2 ^ f * 2 := pow_succ 2 f
      obtain ⟨hlo, hhi⟩ := ih (n / 2) (by omega) (by omega)
      have e1 : 2 ^ (log2floorAux f (n / 2) + 1) = 2 ^ log2floorAux f (n / 2) * 2 :=
        pow_succ 2 _
      have e2 : 2 ^ (log2floorAux f (n / 2) + 1 + 1) =
          2 ^ (log2floorAux f (n / 2) + 1) * 2 := pow_succ 2 _
      omega
    · rw [if_neg h]
      simp only [pow_zero, pow_one]
      omega

theorem log2floor_spec (n : Nat) (h1 : 1 ≤ n) :
    2 ^ log2floor n ≤ n ∧ n < 2 ^ (log2floor n + 1) :=
  log2floorAux_spec n n h1 (Nat.le_of_lt (Nat.lt_two_pow n))

/-- The corrected exponent guess of `elog` is exact on a quotient whose value
is the integer `a`. -/
theorem elog_mul (a d : Int) (h1 : 1 ≤ a) (hd : 0 < d) :
    elog (a * d) d = (log2floor a.natAbs : Int) := by
  have ha0 : 0 ≤ a := by omega
  have hAa : (a.natAbs : Int) = a := Int.natAbs_of_nonneg ha0
  have hDd : (d.natAbs : Int) = d := Int.natAbs_of_nonneg (by omega)
  have hA1 : 1 ≤ a.natAbs := by omega
  have hD1 : 1 ≤ d.natAbs := by omega
  obtain ⟨hlaA, hAla⟩ := log2floor_spec a.natAbs hA1
  obtain ⟨hldD, hDld⟩ := log2floor_spec d.natAbs hD1
  obtain ⟨hlnAD, hADln⟩ := log2floor_spec (a.natAbs * d.natAbs) (by
    have := Nat.mul_le_mul hA1 hD1
    omega)
  have h5 : 2 ^ (log2floor a.natAbs + log2floor d.natAbs) ≤ a.natAbs * d.natAbs := by
    rw [pow_add]; exact Nat.mul_le_mul hlaA hldD
  have h6 : a.natAbs * d.natAbs <
      2 ^ (log2floor a.natAbs + log2floor d.natAbs + 2) := by
    have hm : a.natAbs * d.natAbs <
        2 ^ (log2floor a.natAbs + 1) * 2 ^ (log2floor d.natAbs + 1) :=
      Nat.mul_lt_mul'' hAla hDld
    have he : 2 ^ (log2floor a.natAbs + 1) * 2 ^ (log2floor d.natAbs + 1) =
        2 ^ (log2floor a.natAbs + log2floor d.natAbs + 2) := by
      rw [← pow_add]; ring_nf
    omega
  have hcase : log2floor (a.natAbs * d.natAbs) =
      log2floor a.natAbs + log2floor d.natAbs ∨
      log2floor (a.natAbs * d.natAbs) =
      log2floor a.natAbs + log2floor d.natAbs + 1 := by
    have hlow : log2floor a.natAbs + log2floor d.natAbs ≤
        log2floor (a.natAbs * d.natAbs) := by
      by_contra hcon
      have : 2 ^ (log2floor (a.natAbs * d.natAbs) + 1) ≤
          2 ^ (log2floor a.natAbs + log2floor d.natAbs) :=
        Nat.pow_le_pow_right (by norm_num) (by omega)
      omega
    have hhigh : log2floor (a.natAbs * d.natAbs) ≤
        log2floor a.natAbs + log2floor d.natAbs + 1 := by
      by_contra hcon
      have : 2 ^ (log2floor a.natAbs + log2floor d.natAbs + 2) ≤
          2 ^ (log2floor (a.natAbs * d.natAbs)) :=
        Nat.pow_le_pow_right (by norm_num) (by omega)
      omega
    omega
  have hcast_lo : (2 : Int) ^ log2floor a.natAbs ≤ a := by
    calc (2 : Int) ^ log2floor a.natAbs = ((2 ^ log2floor a.natAbs : Nat) : Int) := by
          push_cast; ring
    _ ≤ (a.natAbs : Int) := by exact_mod_cast hlaA
    _ = a := hAa
  have hcast_hi : a < (2 : Int) ^ (log2floor a.natAbs + 1) := by
    calc a = (a.natAbs : Int) := hAa.symm
    _ < ((2 ^ (log2floor a.natAbs + 1) : Nat) : Int) := by exact_mod_cast hAla
    _ = (2 : Int) ^ (log2floor a.natAbs + 1) := by push_cast; ring
  rcases hcase with hc | hc
  · have hl : ((log2floor (a.natAbs * d.natAbs) : Int) - (log2floor d.natAbs : Int))
        = (log2floor a.natAbs : Int) := by rw [hc]; push_cast; ring
    have hle : le2pow ((log2floor a.natAbs : Int)) d (a * d) = true := by
      rw [le2pow, if_pos (by positivity)]
      simp only [decide_eq_true_eq, Int.toNat_natCast]
      calc d * 2 ^ log2floor a.natAbs ≤ d * a :=
            mul_le_mul_of_nonneg_left hcast_lo (by omega)
      _ = a * d := mul_comm d a
    simp only [elog, Int.natAbs_mul, hl, hle, if_true]
  · have hl : ((log2floor (a.natAbs * d.natAbs) : Int) - (log2floor d.natAbs : Int))
        = (log2floor a.natAbs : Int) + 1 := by rw [hc]; push_cast; ring
    have hle : le2pow ((log2floor a.natAbs : Int) + 1) d (a * d) = false := by
      rw [le2pow, if_pos (by positivity)]
      simp only [decide_eq_false_iff_not, not_le]
      have htn : ((log2floor a.natAbs : Int) + 1).toNat = log2floor a.natAbs + 1 := by
        omega
      rw [htn]
      calc a * d < 2 ^ (log2floor a.natAbs + 1) * d :=
            mul_lt_mul_of_pos_right hcast_hi hd
      _ = d * 2 ^ (log2floor a.natAbs + 1) := mul_comm _ d
    simp only [elog, Int.natAbs_mul, hl, hle, Bool.false_eq_true, if_false]
    ring

/-- Small positive integers pass through the rounding step unchanged
(with the fully scaled 53-bit significand the implementation produces). -/
theorem log2floor_natAbs_le (a : Int) (h1 : 1 ≤ a) (h2 : a < 2 ^ 53) :
    log2floor a.natAbs ≤ 52 := by
  obtain ⟨hlo, _⟩ := log2floor_spec a.natAbs (by omega)
  by_contra hcon
  have hge : (2 : Nat) ^ 53 ≤ 2 ^ log2floor a.natAbs :=
    Nat.pow_le_pow_right (by norm_num) (by omega)
  have hA53 : a.natAbs < 2 ^ 53 := by
    have hp : (2 : Int) ^ 53 = ((2 ^ 53 : Nat) : Int) := by norm_cast
    omega
  omega

theorem roundNDpos_mul (a d : Int) (h1 : 1 ≤ a) (h2 : a < 2 ^ 53) (hd : 0 < d) :
    roundNDpos (a * d) d =
      (a * 2 ^ (52 - log2floor a.natAbs), (log2floor a.natAbs : Int) - 52) := by
  have hla52 : log2floor a.natAbs ≤ 52 := log2floor_natAbs_le a h1 h2
  simp only [roundNDpos]
  rw [elog_mul a d h1 hd]
  have hk0 : (log2floor a.natAbs : Int) - 52 ≤ 0 := by omega
  have htn : (-((log2floor a.natAbs : Int) - 52)).toNat = 52 - log2floor a.natAbs := by
    omega
  rw [scaleNum, scaleDen, if_pos hk0, if_pos hk0, htn]
  have hrw : a * d * 2 ^ (52 - log2floor a.natAbs) =
      (a * 2 ^ (52 - log2floor a.natAbs)) * d := by ring
  rw [hrw, Int.mul_ediv_cancel _ (by omega), Int.mul_emod_left]
  rw [roundTie, if_pos (by omega)]

theorem roundND_mul (a d : Int) (h1 : 1 ≤ a) (h2 : a < 2 ^ 53) (hd : 0 < d) :
    roundND (a * d) d =
      (a * 2 ^ (52 - log2floor a.natAbs), (log2floor a.natAbs : Int) - 52) := by
  have hpos : 0 < a * d := mul_pos (by omega) hd
  rw [roundND, if_neg (by omega), if_neg (by omega)]
  exact roundNDpos_mul a d h1 h2 hd

theorem truncF_mul_pow (a : Int) (j : Nat) : truncF (a * 2 ^ j, -(j : Int)) = a := by
  rw [truncF]
  by_cases hj : j = 0
  · subst hj; simp
  · rw [if_neg (by simp; omega)]
    have htn : (-(-(j : Int))).toNat = j := by omega
    simp only [htn]
    exact Int.mul_tdiv_cancel a (by positivity)

/-- At 100 percent the float64 pipeline is exact up to `2 ^ 53`. -/
theorem percentValue_100 (a : Int) (h0 : 0 ≤ a) (h53 : a ≤ 2 ^ 53) :
    percentValue a 100 = a := by
  rcases eq_or_lt_of_le h0 with h | hpos
  · rw [← h]; decide
  rcases eq_or_lt_of_le h53 with h | hlt
  · rw [h]; decide
  have h1 : 1 ≤ a := hpos
  rw [percentValue]
  have hdiv : fdiv (i64f 100) (i64f 100) = (2 ^ 52, -52) := by decide
  rw [hdiv]
  have hx : i64f a =
      (a * 2 ^ (52 - log2floor a.natAbs), (log2floor a.natAbs : Int) - 52) := by
    rw [i64f]
    have hm := roundND_mul a 1 h1 hlt (by norm_num)
    simpa using hm
  rw [hx]
  have hla52 : log2floor a.natAbs ≤ 52 := log2floor_natAbs_le a h1 hlt
  simp only [fmul, ofDyadic]
  rw [if_neg (by simp; omega)]
  have htn : (-((log2floor a.natAbs : Int) - 52 + -52)).toNat =
      104 - log2floor a.natAbs := by omega
  have hmant : a * 2 ^ (52 - log2floor a.natAbs) * 2 ^ 52 =
      a * 2 ^ (104 - log2floor a.natAbs) := by
    rw [mul_assoc, ← pow_add]
    congr 2
    omega
  simp only [htn, hmant]
  rw [roundND_mul a _ h1 hlt (by positivity)]
  have hexp : (log2floor a.natAbs : Int) - 52 = -((52 - log2floor a.natAbs : Nat) : Int) := by
    omega
  rw [hexp]
  exact truncF_mul_pow a _

/-! ## Sign of the float64 pipeline -/

theorem roundND_fst_nonneg (n d : Int) (hn : 0 ≤ n) (hd : 0 < d) :
    0 ≤ (roundND n d).1 := by
  rw [roundND]
  by_cases h0 : n = 0
  · simp [h0]
  · rw [if_neg h0, if_neg (by omega)]
    rw [roundNDpos]
    have hn2 : 0 ≤ scaleNum n (elog n d - 52) := by
      rw [scaleNum]; split <;> positivity
    have hd2 : 0 < scaleDen d (elog n d - 52) := by
      rw [scaleDen]; split <;> positivity
    have hq : 0 ≤ scaleNum n (elog n d - 52) / scaleDen d (elog n d - 52) :=
      Int.ediv_nonneg hn2 (by omega)
    simp only [roundTie]
    split
    · exact hq
    · split
      · omega
      · split <;> omega

theorem ofDyadic_fst_nonneg (m e : Int) (hm : 0 ≤ m) : 0 ≤ (ofDyadic m e).1 := by
  rw [ofDyadic]
  split
  · exact mul_nonneg hm (by positivity)
  · exact hm

theorem ofDyadic_snd_pos (m e : Int) : 0 < (ofDyadic m e).2 := by
  rw [ofDyadic]
  split
  · exact one_pos
  · positivity

theorem fmul_fst_nonneg (x y : Int × Int) (hx : 0 ≤ x.1) (hy : 0 ≤ y.1) :
    0 ≤ (fmul x y).1 := by
  rw [fmul]
  exact roundND_fst_nonneg _ _ (ofDyadic_fst_nonneg _ _ (by positivity))
    (ofDyadic_snd_pos _ _)

theorem fdiv_fst_nonneg (x y : Int × Int) (hx : 0 ≤ x.1) (hy : 0 < y.1) :
    0 ≤ (fdiv x y).1 := by
  rw [fdiv]
  have hd : 0 < (ofDyadic x.1 (x.2 - y.2)).2 * y.1 :=
    mul_pos (ofDyadic_snd_pos _ _) hy
  rw [if_neg (by omega)]
  exact roundND_fst_nonneg _ _ (ofDyadic_fst_nonneg _ _ hx) hd

theorem truncF_nonneg (x : Int × Int) (hx : 0 ≤ x.1) : 0 ≤ truncF x := by
  rw [truncF]
  split
  · positivity
  · exact Int.tdiv_nonneg hx (by positivity)

/-- The percentage computation never returns a negative value on nonnegative
inputs. -/
theorem percentValue_nonneg (a p : Int) (h0 : 0 ≤ a) (hp : 0 ≤ p) :
    0 ≤ percentValue a p := by
  have h100 : (0:Int) < (i64f 100).1 := by decide
  have hx : 0 ≤ (i64f a).1 := roundND_fst_nonneg a 1 h0 (by norm_num)
  have hp1 : 0 ≤ (i64f p).1 := roundND_fst_nonneg p 1 hp (by norm_num)
  exact truncF_nonneg _ (fmul_fst_nonneg _ _ hx (fdiv_fst_nonneg _ _ hp1 h100))

/-! ## Calculator-level helper lemmas -/

/-- A resource kind whose minimum is not malformed always computes, and its
result is characterised by the positivity of the final value. -/
theorem calcResource_eq (alloc : Option Int) (pct : Int) (minq : MinQuantity)
    (h : minq ≠ .invalid) :
    calcResource alloc pct minq =
      .ok (if 0 < finalValue alloc pct minq then some (finalValue alloc pct minq)
        else none) := by
  cases alloc <;> cases minq <;>
    simp [calcResource, finalValue] at h ⊢

/-- Inversion of a successful calculation into its three kinds. -/
theorem calc_ok_inv (t : FlexDaemonsetTemplateSpec) (alloc : NodeAllocatable)
    (res : ResourceList) (h : CalculatePodResources t alloc = .ok res) :
    calcResource alloc.cpu t.CPUPercentage t.MinCPU = .ok res.cpu ∧
    calcResource alloc.memory t.MemoryPercentage t.MinMemory = .ok res.memory ∧
    calcResource alloc.ephemeralStorage t.StoragePercentage t.MinStorage =
      .ok res.ephemeralStorage := by
  rw [CalculatePodResources] at h
  cases h1 : calcResource alloc.cpu t.CPUPercentage t.MinCPU <;>
    rw [h1] at h <;> simp [bind, Except.bind] at h
  cases h2 : calcResource alloc.memory t.MemoryPercentage t.MinMemory <;>
    rw [h2] at h <;> simp [bind, Except.bind] at h
  cases h3 : calcResource alloc.ephemeralStorage t.StoragePercentage t.MinStorage <;>
    rw [h3] at h <;> simp [bind, Except.bind] at h
  cases h
  exact ⟨rfl, rfl, rfl⟩

/-! ## Claim C3 -/

/-- C3 (counterexample): the percentage value is not computed as exact floor
division — with allocatable 100 milli-units of cpu at 29 percent the
calculator returns 28 although `⌊100 * 29 / 100⌋ = 29`. -/
theorem calc_percentage_not_exact_floor :
    CalculatePodResources
        ⟨29, 1, 1, .unset, .unset, .unset⟩ ⟨some 100, none, none⟩ =
      .ok ⟨some 28, none, none⟩ ∧ (100 * 29 : Int) / 100 = 29 :=
  ⟨rfl, by decide⟩

/-- C3 (amended): the percentage value is the int64 truncation of the float64
product `float64(a) * (float64(p) / 100.0)`; it equals `⌊a * p / 100⌋`
whenever that pipeline is exact — in particular for `p = 100` and every
`0 ≤ a ≤ 2 ^ 53` — but not for all representable int64 allocatable values. -/
theorem percentValue_floor_p100 (a : Int) (h0 : 0 ≤ a) (h53 : a ≤ 2 ^ 53) :
    percentValue a 100 = a * 100 / 100 := by
  rw [percentValue_100 a h0 h53]
  omega

/-- C3 (witness): the amended exactness at `a = 2000`. -/
theorem percentValue_floor_p100_witness :
    percentValue 2000 100 = 2000 * 100 / 100 :=
  percentValue_floor_p100 2000 (by norm_num) (by norm_num)

/-! ## Claim C7 -/

/-- C7: whenever every set minimum parses, the calculation succeeds (an
absent allocatable value is not an error), and a resource kind is present in
the result exactly when its final value — the percentage value after any
minimum floor when allocatable is present, else the minimum fallback — is
strictly positive; a kind is never present with a nonpositive quantity. -/
theorem calc_membership_iff_positive (t : FlexDaemonsetTemplateSpec)
    (alloc : NodeAllocatable) (hc : t.MinCPU ≠ .invalid)
    (hm : t.MinMemory ≠ .invalid) (hs : t.MinStorage ≠ .invalid) :
    ∃ res, CalculatePodResources t alloc = .ok res ∧
      res.cpu = (if 0 < finalValue alloc.cpu t.CPUPercentage t.MinCPU
        then some (finalValue alloc.cpu t.CPUPercentage t.MinCPU) else none) ∧
      res.memory = (if 0 < finalValue alloc.memory t.MemoryPercentage t.MinMemory
        then some (finalValue alloc.memory t.MemoryPercentage t.MinMemory) else none) ∧
      res.ephemeralStorage =
        (if 0 < finalValue alloc.ephemeralStorage t.StoragePercentage t.MinStorage
        then some (finalValue alloc.ephemeralStorage t.StoragePercentage t.MinStorage)
        else none) := by
  refine ⟨⟨_, _, _⟩, ?_, rfl, rfl, rfl⟩
  rw [CalculatePodResources, calcResource_eq _ _ _ hc, calcResource_eq _ _ _ hm,
    calcResource_eq _ _ _ hs]
  rfl

/-- C7 (witness): the spec's second scenario — allocatable cpu 500m only,
template cpu 10 percent with minimum 100m — yields exactly cpu 100m, the
other kinds absent without error. -/
theorem calc_membership_iff_positive_witness :
    ∃ res, CalculatePodResources
        ⟨10, 15, 1, .parsed 100, .unset, .unset⟩ ⟨some 500, none, none⟩ =
      .ok res ∧
      res.cpu = (if 0 < finalValue (some 500) 10 (.parsed 100)
        then some (finalValue (some 500) 10 (.parsed 100)) else none) ∧
      res.memory = (if 0 < finalValue none 15 .unset
        then some (finalValue none 15 .unset) else none) ∧
      res.ephemeralStorage = (if 0 < finalValue none 1 .unset
        then some (finalValue none 1 .unset) else none) :=
  calc_membership_iff_positive ⟨10, 15, 1, .parsed 100, .unset, .unset⟩
    ⟨some 500, none, none⟩ (by decide) (by decide) (by decide)

/-! ## Claim C8 -/

/-- C8: a set-but-malformed minimum fails the whole calculation, and for a
kind with allocatable present whose minimum parses, whenever the
percentage-computed value is strictly below that minimum the result for the
kind is exactly the parsed minimum. -/
theorem calc_minimum_floor (t : FlexDaemonsetTemplateSpec) (alloc : NodeAllocatable) :
    ((t.MinCPU = .invalid ∨ t.MinMemory = .invalid ∨ t.MinStorage = .invalid) →
      CalculatePodResources t alloc = .error ()) ∧
    (∀ a m res, alloc.cpu = some a → 0 ≤ a → 0 ≤ t.CPUPercentage →
      t.MinCPU = .parsed m → percentValue a t.CPUPercentage < m →
      CalculatePodResources t alloc = .ok res → res.cpu = some m) ∧
    (∀ a m res, alloc.memory = some a → 0 ≤ a → 0 ≤ t.MemoryPercentage →
      t.MinMemory = .parsed m → percentValue a t.MemoryPercentage < m →
      CalculatePodResources t alloc = .ok res → res.memory = some m) ∧
    (∀ a m res, alloc.ephemeralStorage = some a → 0 ≤ a → 0 ≤ t.StoragePercentage →
      t.MinStorage = .parsed m → percentValue a t.StoragePercentage < m →
      CalculatePodResources t alloc = .ok res → res.ephemeralStorage = some m) := by
  refine ⟨?_, ?_, ?_, ?_⟩
  · intro hinv
    rw [CalculatePodResources]
    rcases hinv with h | h | h
    · rw [h]
      cases alloc.cpu <;> rfl
    · cases h1 : calcResource alloc.cpu t.CPUPercentage t.MinCPU with
      | error e => cases e; rfl
      | ok v =>
        rw [h]
        cases alloc.memory <;> rfl
    · cases h1 : calcResource alloc.cpu t.CPUPercentage t.MinCPU with
      | error e => cases e; rfl
      | ok v =>
        cases h2 : calcResource alloc.memory t.MemoryPercentage t.MinMemory with
        | error e => cases e; rfl
        | ok w =>
          rw [h]
          cases alloc.ephemeralStorage <;> rfl
  · intro a m res ha h0 hp hmin hlt hok
    have hcpu := (calc_ok_inv t alloc res hok).1
    rw [ha, hmin] at hcpu
    have h0' : 0 ≤ percentValue a t.CPUPercentage := percentValue_nonneg a _ h0 hp
    simp only [calcResource, if_pos hlt, if_pos (by omega : (0:Int) < m)] at hcpu
    simpa using hcpu.symm
  · intro a m res ha h0 hp hmin hlt hok
    have hmem := (calc_ok_inv t alloc res hok).2.1
    rw [ha, hmin] at hmem
    have h0' : 0 ≤ percentValue a t.MemoryPercentage := percentValue_nonneg a _ h0 hp
    simp only [calcResource, if_pos hlt, if_pos (by omega : (0:Int) < m)] at hmem
    simpa using hmem.symm
  · intro a m res ha h0 hp hmin hlt hok
    have hst := (calc_ok_inv t alloc res hok).2.2
    rw [ha, hmin] at hst
    have h0' : 0 ≤ percentValue a t.StoragePercentage := percentValue_nonneg a _ h0 hp
    simp only [calcResource, if_pos hlt, if_pos (by omega : (0:Int) < m)] at hst
    simpa using hst.symm

/-! ## Map lemmas -/

theorem KVMap.get_erase (m : KVMap) (k k' : String) :
    (m.erase k).get k' = if k = k' then none else m.get k' := by
  induction m with
  | nil => simp [KVMap.erase, KVMap.get]
  | cons kv rest ih =>
    obtain ⟨k0, v0⟩ := kv
    by_cases h0 : k0 = k
    · subst h0
      rw [KVMap.erase, if_pos rfl, ih]
      by_cases h1 : k0 = k'
      · subst h1; simp [KVMap.get]
      · simp [KVMap.get, h1]
    · rw [KVMap.erase, if_neg h0]
      by_cases h1 : k0 = k'
      · subst h1
        have hkk : ¬ k = k0 := fun hh => h0 hh.symm
        rw [KVMap.get, if_pos rfl, if_neg hkk, KVMap.get, if_pos rfl]
      · rw [KVMap.get, if_neg h1, ih]
        by_cases h2 : k = k'
        · simp [h2]
        · simp [h2, KVMap.get, h1]

theorem KVMap.get_insert (m : KVMap) (k v : String) (k' : String) :
    (m.insert k v).get k' = if k = k' then some v else m.get k' := by
  rw [KVMap.insert, KVMap.get]
  by_cases h : k = k'
  · simp [h]
  · simp [h, KVMap.get_erase]

theorem KVMap.get_insertIfAbsent (m : KVMap) (k v : String) (k' : String) :
    (m.insertIfAbsent k v).get k' =
      if k = k' ∧ m.get k = none then some v else m.get k' := by
  rw [KVMap.insertIfAbsent]
  by_cases h : (m.get k).isSome
  · rw [if_pos h]
    by_cases h1 : k = k'
    · subst h1
      simp only [Option.isSome_iff_exists] at h
      obtain ⟨v0, hv0⟩ := h
      simp [hv0]
    · simp [h1]
  · rw [if_neg h, KVMap.get_insert]
    simp only [Option.not_isSome_iff_eq_none] at h
    by_cases h1 : k = k'
    · subst h1; simp [h]
    · simp [h1]

theorem KVMap.get_foldl_insertIfAbsent (l : KVMap) :
    ∀ (base : KVMap) (k : String),
      (l.foldl (fun m kv => KVMap.insertIfAbsent m kv.fst kv.snd) base).get k =
        match base.get k with
        | some v => some v
        | none => l.get k := by
  induction l with
  | nil =>
    intro base k
    cases hb : base.get k <;> simp [KVMap.get, hb]
  | cons kv rest ih =>
    intro base k
    obtain ⟨k0, v0⟩ := kv
    rw [List.foldl_cons, ih, KVMap.get_insertIfAbsent]
    by_cases h1 : k0 = k
    · subst h1
      cases hb : base.get k0 with
      | some v => simp [hb]
      | none => simp [hb, KVMap.get]
    · rw [if_neg (by simp [h1])]
      cases hb : base.get k with
      | some v => simp [hb]
      | none => simp [hb, KVMap.get, h1]

/-- C8 (witness): allocatable cpu 500m at 10 percent with minimum 100m is
floored to exactly 100m. -/
theorem calc_minimum_floor_witness :
    (⟨some 100, none, none⟩ : ResourceList).cpu = some 100 :=
  (calc_minimum_floor ⟨10, 1, 1, .parsed 100, .unset, .unset⟩
      ⟨some 500, none, none⟩).2.1 500 100 ⟨some 100, none, none⟩ rfl
    (by norm_num) (by norm_num) rfl (by decide) rfl

/-! ## Claim C5 -/

/-- C5: the inline admission handler returns an error exactly when decoding
fails, or — on the path actually taken — the template fetch fails, the node
fetch fails, or the calculation fails; and whenever it does not error, each
of the listed non-patching cases (pod not DaemonSet-owned, annotation absent
or empty, node unassigned, empty calculated resources) is allowed with the
pod unmodified. -/
theorem admission_error_iff (env : AdmissionEnv) (decoded : Except Unit Pod) :
    (PodMutatorHandle env decoded = .errored ↔
      decoded = .error () ∨
      ∃ pod, decoded = .ok pod ∧ isDaemonSetOwned pod = true ∧
        ∃ tn, KVMap.get pod.annots FlexDaemonsetTemplateAnn = some tn ∧ tn ≠ "" ∧
          (env.getTemplate tn = none ∨
            ∃ tmpl, env.getTemplate tn = some tmpl ∧ pod.nodeName ≠ "" ∧
              (env.getNode pod.nodeName = none ∨
                ∃ nd, env.getNode pod.nodeName = some nd ∧
                  CalculatePodResources tmpl nd.allocatable = .error ()))) ∧
    (∀ pod, decoded = .ok pod → PodMutatorHandle env decoded ≠ .errored →
      (isDaemonSetOwned pod = false ∨
        KVMap.get pod.annots FlexDaemonsetTemplateAnn = none ∨
        KVMap.get pod.annots FlexDaemonsetTemplateAnn = some "" ∨
        pod.nodeName = "" ∨
        (∃ tn tmpl nd, KVMap.get pod.annots FlexDaemonsetTemplateAnn = some tn ∧
          env.getTemplate tn = some tmpl ∧ env.getNode pod.nodeName = some nd ∧
          CalculatePodResources tmpl nd.allocatable = .ok ResourceList.empty)) →
      PodMutatorHandle env decoded = .allowed) := by
  cases decoded with
  | error e =>
    cases e
    refine ⟨by simp [PodMutatorHandle], ?_⟩
    intro pod hdec
    exact absurd hdec (by simp)
  | ok pod =>
    by_cases h1 : isDaemonSetOwned pod = true
    case neg =>
      have h1' : isDaemonSetOwned pod = false := by
        cases hgot : isDaemonSetOwned pod
        · rfl
        · exact absurd hgot h1
      have hH : PodMutatorHandle env (.ok pod) = .allowed := by
        simp [PodMutatorHandle, h1']
      refine ⟨by simp [hH, h1'], ?_⟩
      intro pod' hdec _ _
      cases hdec
      exact hH
    case pos =>
    cases h2 : KVMap.get pod.annots FlexDaemonsetTemplateAnn with
    | none =>
      have hH : PodMutatorHandle env (.ok pod) = .allowed := by
        simp [PodMutatorHandle, h1, h2]
      refine ⟨by simp [hH, h1, h2], ?_⟩
      intro pod' hdec _ _
      cases hdec
      exact hH
    | some tn =>
      by_cases h3 : tn = ""
      case pos =>
        subst h3
        have hH : PodMutatorHandle env (.ok pod) = .allowed := by
          simp [PodMutatorHandle, h1, h2]
        refine ⟨by simp [hH, h1, h2], ?_⟩
        intro pod' hdec _ _
        cases hdec
        exact hH
      case neg =>
      cases h4 : env.getTemplate tn with
      | none =>
        have hH : PodMutatorHandle env (.ok pod) = .errored := by
          simp [PodMutatorHandle, h1, h2, h3, h4]
        refine ⟨?_, ?_⟩
        · rw [hH]
          simp only [true_iff]
          exact Or.inr ⟨pod, rfl, h1, tn, h2, h3, Or.inl h4⟩
        · intro pod' hdec hne _
          cases hdec
          exact absurd hH hne
      | some tmpl =>
        by_cases h5 : pod.nodeName = ""
        case pos =>
          have hH : PodMutatorHandle env (.ok pod) = .allowed := by
            simp [PodMutatorHandle, h1, h2, h3, h4, h5]
          refine ⟨by simp [hH, h1, h2, h3, h4, h5], ?_⟩
          intro pod' hdec _ _
          cases hdec
          exact hH
        case neg =>
        cases h6 : env.getNode pod.nodeName with
        | none =>
          have hH : PodMutatorHandle env (.ok pod) = .errored := by
            simp [PodMutatorHandle, h1, h2, h3, h4, h5, h6]
          refine ⟨?_, ?_⟩
          · rw [hH]
            simp only [true_iff]
            exact Or.inr ⟨pod, rfl, h1, tn, h2, h3,
              Or.inr ⟨tmpl, h4, h5, Or.inl h6⟩⟩
          · intro pod' hdec hne _
            cases hdec
            exact absurd hH hne
        | some nd =>
          cases h7 : CalculatePodResources tmpl nd.allocatable with
          | error e =>
            cases e
            have hH : PodMutatorHandle env (.ok pod) = .errored := by
              simp [PodMutatorHandle, h1, h2, h3, h4, h5, h6, h7]
            refine ⟨?_, ?_⟩
            · rw [hH]
              simp only [true_iff]
              exact Or.inr ⟨pod, rfl, h1, tn, h2, h3,
                Or.inr ⟨tmpl, h4, h5, Or.inr ⟨nd, h6, h7⟩⟩⟩
            · intro pod' hdec hne _
              cases hdec
              exact absurd hH hne
          | ok res =>
            by_cases h8 : res = ResourceList.empty
            case pos =>
              subst h8
              have hH : PodMutatorHandle env (.ok pod) = .allowed := by
                simp [PodMutatorHandle, h1, h2, h3, h4, h5, h6, h7]
              refine ⟨by simp [hH, h1, h2, h3, h4, h5, h6, h7], ?_⟩
              intro pod' hdec _ _
              cases hdec
              exact hH
            case neg =>
              have hH : PodMutatorHandle env (.ok pod) =
                  .patched (applyCalculatedResources res pod) := by
                simp [PodMutatorHandle, h1, h2, h3, h4, h5, h6, h7, h8]
              refine ⟨by simp [hH, h1, h2, h3, h4, h5, h6, h7, h8], ?_⟩
              intro pod' hdec _ hcases
              cases hdec
              rcases hcases with hc | hc | hc | hc | ⟨tn', tmpl', nd', hc1, hc2, hc3, hc4⟩
              · rw [h1] at hc; cases hc
              · rw [h2] at hc; cases hc
              · rw [h2] at hc
                exact absurd (Option.some.inj hc) h3
              · exact absurd hc h5
              · rw [h2] at hc1
                cases Option.some.inj hc1
                rw [h4] at hc2
                cases Option.some.inj hc2
                rw [h6] at hc3
                cases Option.some.inj hc3
                rw [h7] at hc4
                exact absurd (Except.ok.inj hc4) h8

/-- C5 (witness): a DaemonSet-owned pod whose annotation names a template the
store lacks is rejected. -/
theorem admission_error_iff_witness :
    PodMutatorHandle
        ⟨fun _ => none, fun _ => none⟩
        (.ok
          { name := "p", inNamespace := "ns", labels := [],
            annots := [(FlexDaemonsetTemplateAnn, "t1")],
            ownerReferences := [⟨appsV1, kindDaemonSet, "ds", 1⟩],
            nodeName := "n1", containers := [], initContainers := [],
            tolerations := [], hasAffinity := false, restartPolicy := "" }) =
      .errored :=
  ((admission_error_iff ⟨fun _ => none, fun _ => none⟩ _).1).mpr
    (Or.inr ⟨_, rfl, rfl, "t1", rfl, by decide, Or.inl rfl⟩)

/-! ## Claim C6 -/

theorem mergeResources_idem (res t : ResourceList) :
    mergeResources res (mergeResources res t) = mergeResources res t := by
  by_cases hc : res.cpu.isSome <;> by_cases hm : res.memory.isSome <;>
    by_cases hs : res.ephemeralStorage.isSome <;>
      simp [mergeResources, hc, hm, hs]

theorem applyCalculatedResources_idem (res : ResourceList) (pod : Pod) :
    applyCalculatedResources res (applyCalculatedResources res pod) =
      applyCalculatedResources res pod := by
  simp only [applyCalculatedResources, List.map_map]
  congr 1 <;>
    exact List.map_congr_left (fun c _ => by
      simp [Function.comp, mergeResources_idem])

theorem admission_idempotent (env : AdmissionEnv) (pod p1 : Pod)
    (h : PodMutatorHandle env (.ok pod) = .patched p1) :
    PodMutatorHandle env (.ok p1) = .patched p1 := by
  by_cases h1 : isDaemonSetOwned pod = true
  case neg =>
    have h1' : isDaemonSetOwned pod = false := by
      cases hgot : isDaemonSetOwned pod
      · rfl
      · exact absurd hgot h1
    have hH : PodMutatorHandle env (.ok pod) = .allowed := by
      simp [PodMutatorHandle, h1']
    rw [hH] at h
    cases h
  case pos =>
  cases h2 : KVMap.get pod.annots FlexDaemonsetTemplateAnn with
  | none =>
    have hH : PodMutatorHandle env (.ok pod) = .allowed := by
      simp [PodMutatorHandle, h1, h2]
    rw [hH] at h
    cases h
  | some tn =>
    by_cases h3 : tn = ""
    case pos =>
      subst h3
      have hH : PodMutatorHandle env (.ok pod) = .allowed := by
        simp [PodMutatorHandle, h1, h2]
      rw [hH] at h
      cases h
    case neg =>
    cases h4 : env.getTemplate tn with
    | none =>
      have hH : PodMutatorHandle env (.ok pod) = .errored := by
        simp [PodMutatorHandle, h1, h2, h3, h4]
      rw [hH] at h
      cases h
    | some tmpl =>
      by_cases h5 : pod.nodeName = ""
      case pos =>
        have hH : PodMutatorHandle env (.ok pod) = .allowed := by
          simp [PodMutatorHandle, h1, h2, h3, h4, h5]
        rw [hH] at h
        cases h
      case neg =>
      cases h6 : env.getNode pod.nodeName with
      | none =>
        have hH : PodMutatorHandle env (.ok pod) = .errored := by
          simp [PodMutatorHandle, h1, h2, h3, h4, h5, h6]
        rw [hH] at h
        cases h
      | some nd =>
        cases h7 : CalculatePodResources tmpl nd.allocatable with
        | error e =>
          have hH : PodMutatorHandle env (.ok pod) = .errored := by
            simp [PodMutatorHandle, h1, h2, h3, h4, h5, h6, h7]
          rw [hH] at h
          cases h
        | ok res =>
          by_cases h8 : res = ResourceList.empty
          case pos =>
            subst h8
            have hH : PodMutatorHandle env (.ok pod) = .allowed := by
              simp [PodMutatorHandle, h1, h2, h3, h4, h5, h6, h7]
            rw [hH] at h
            cases h
          case neg =>
            have hH : PodMutatorHandle env (.ok pod) =
                .patched (applyCalculatedResources res pod) := by
              simp [PodMutatorHandle, h1, h2, h3, h4, h5, h6, h7, h8]
            rw [hH] at h
            cases h
            have e1 : isDaemonSetOwned (applyCalculatedResources res pod) = true := h1
            have e2 : KVMap.get (applyCalculatedResources res pod).annots
                FlexDaemonsetTemplateAnn = some tn := h2
            have e5 : ¬((applyCalculatedResources res pod).nodeName = "") := h5
            have e6 : env.getNode (applyCalculatedResources res pod).nodeName =
                some nd := h6
            simp [PodMutatorHandle, e1, e2, h3, h4, e5, e6, h7, h8,
              applyCalculatedResources_idem]

/-- C6 (witness): idempotence at a concrete pod, node and template triple
(cpu 10 percent of 2000m = 200m applied to one container). -/
theorem admission_idempotent_witness :
    PodMutatorHandle
        ⟨fun _ => some ⟨10, 1, 1, .unset, .unset, .unset⟩,
          fun _ => some ⟨"n1", false, [], ⟨some 2000, none, none⟩⟩⟩
        (.ok (applyCalculatedResources ⟨some 200, none, none⟩
          { name := "p", inNamespace := "ns", labels := [],
            annots := [(FlexDaemonsetTemplateAnn, "t1")],
            ownerReferences := [⟨appsV1, kindDaemonSet, "ds", 1⟩],
            nodeName := "n1",
            containers := [⟨"c", ⟨⟨none, none, none⟩, ⟨none, none, none⟩⟩⟩],
            initContainers := [], tolerations := [], hasAffinity := false,
            restartPolicy := "" })) =
      .patched (applyCalculatedResources ⟨some 200, none, none⟩
          { name := "p", inNamespace := "ns", labels := [],
            annots := [(FlexDaemonsetTemplateAnn, "t1")],
            ownerReferences := [⟨appsV1, kindDaemonSet, "ds", 1⟩],
            nodeName := "n1",
            containers := [⟨"c", ⟨⟨none, none, none⟩, ⟨none, none, none⟩⟩⟩],
            initContainers := [], tolerations := [], hasAffinity := false,
            restartPolicy := "" }) :=
  admission_idempotent
    ⟨fun _ => some ⟨10, 1, 1, .unset, .unset, .unset⟩,
      fun _ => some ⟨"n1", false, [], ⟨some 2000, none, none⟩⟩⟩
    { name := "p", inNamespace := "ns", labels := [],
      annots := [(FlexDaemonsetTemplateAnn, "t1")],
      ownerReferences := [⟨appsV1, kindDaemonSet, "ds", 1⟩],
      nodeName := "n1",
      containers := [⟨"c", ⟨⟨none, none, none⟩, ⟨none, none, none⟩⟩⟩],
      initContainers := [], tolerations := [], hasAffinity := false,
      restartPolicy := "" }
    _ rfl

/-! ## Claim C9 -/

/-- C9 (counterexample): a DaemonSet-owned pod carrying the apply-template
annotation with a non-empty name and an assigned node, whose referenced
template is not found — the reconcile completes without error yet the
annotation is not cleared. -/
theorem pod_reconcile_not_always_cleared :
    (PodReconcilerReconcile
        { name := "p", inNamespace := "ns", labels := [],
          annots := [(PodApplyTemplateAnn, "t1")],
          ownerReferences := [⟨appsV1, kindDaemonSet, "ds", 1⟩],
          nodeName := "n1", containers := [], initContainers := [],
          tolerations := [], hasAffinity := false, restartPolicy := "" }
        ⟨.notFound, .notFound⟩).isErr = false ∧
    KVMap.get (PodReconcilerReconcile
        { name := "p", inNamespace := "ns", labels := [],
          annots := [(PodApplyTemplateAnn, "t1")],
          ownerReferences := [⟨appsV1, kindDaemonSet, "ds", 1⟩],
          nodeName := "n1", containers := [], initContainers := [],
          tolerations := [], hasAffinity := false, restartPolicy := "" }
        ⟨.notFound, .notFound⟩).pod.annots PodApplyTemplateAnn = some "t1" :=
  ⟨rfl, rfl⟩

/-- C9 (amended): for a pod carrying the apply-template annotation with a
non-empty template name and an assigned node, a reconcile that completes
without error clears the annotation provided the template and node lookups
succeed; when the referenced template or node is not found the reconcile
returns success while deliberately leaving the annotation in place. -/
theorem pod_reconcile_clears_ann (pod : Pod) (env : PodReconcileEnv)
    (tn : String) (tmpl : FlexDaemonsetTemplateSpec) (nd : Node)
    (h1 : KVMap.get pod.annots PodApplyTemplateAnn = some tn) (h2 : tn ≠ "")
    (h3 : pod.nodeName ≠ "") (h4 : env.template = .found tmpl)
    (h5 : env.node = .found nd)
    (h6 : (PodReconcilerReconcile pod env).isErr = false) :
    KVMap.get (PodReconcilerReconcile pod env).pod.annots PodApplyTemplateAnn =
      none := by
  by_cases hds : isDaemonSetOwned pod = true
  case neg =>
    have hds' : isDaemonSetOwned pod = false := by
      cases hgot : isDaemonSetOwned pod
      · rfl
      · exact absurd hgot hds
    have hH : PodReconcilerReconcile pod env =
        ⟨false, false, removeApplyTemplateAnn pod⟩ := by
      simp [PodReconcilerReconcile, h1, h2, h3, hds']
    rw [hH]
    simp [removeApplyTemplateAnn, KVMap.get_erase]
  case pos =>
  cases h7 : CalculatePodResources tmpl nd.allocatable with
  | error e =>
    have hH : PodReconcilerReconcile pod env = ⟨true, false, pod⟩ := by
      simp [PodReconcilerReconcile, h1, h2, h3, hds, h4, h5, h7]
    rw [hH] at h6
    cases h6
  | ok res =>
    by_cases h8 : res = ResourceList.empty
    case pos =>
      subst h8
      have hH : PodReconcilerReconcile pod env =
          ⟨false, false, removeApplyTemplateAnn pod⟩ := by
        simp [PodReconcilerReconcile, h1, h2, h3, hds, h4, h5, h7]
      rw [hH]
      simp [removeApplyTemplateAnn, KVMap.get_erase]
    case neg =>
      have hH : PodReconcilerReconcile pod env =
          ⟨false, false,
            removeApplyTemplateAnn (applyCalculatedResources res pod)⟩ := by
        simp [PodReconcilerReconcile, h1, h2, h3, hds, h4, h5, h7, h8]
      rw [hH]
      simp [removeApplyTemplateAnn, KVMap.get_erase]

/-- C9 (witness): the clearing at a concrete pod whose template and node are
found and whose calculation applies cpu resources. -/
theorem pod_reconcile_clears_ann_witness :
    KVMap.get (PodReconcilerReconcile
        { name := "p", inNamespace := "ns", labels := [],
          annots := [(PodApplyTemplateAnn, "t1")],
          ownerReferences := [⟨appsV1, kindDaemonSet, "ds", 1⟩],
          nodeName := "n1",
          containers := [⟨"c", ⟨⟨none, none, none⟩, ⟨none, none, none⟩⟩⟩],
          initContainers := [], tolerations := [], hasAffinity := false,
          restartPolicy := "" }
        ⟨.found ⟨10, 1, 1, .unset, .unset, .unset⟩,
          .found ⟨"n1", false, [], ⟨some 2000, none, none⟩⟩⟩).pod.annots
      PodApplyTemplateAnn = none :=
  pod_reconcile_clears_ann _ _ "t1" ⟨10, 1, 1, .unset, .unset, .unset⟩
    ⟨"n1", false, [], ⟨some 2000, none, none⟩⟩ rfl (by decide) (by decide)
    rfl rfl rfl

/-! ## Claim C1 -/

/-- C1: when a FlexDaemonSetNodePod not marked for deletion resolves its
DaemonSet and some selector-matching pod in the DaemonSet namespace sits on
the FDNP node with an `apps/v1` DaemonSet owner reference naming that
DaemonSet, the reconcile sets the conflict phase, deletes the FDNP itself,
and creates no pod. -/
theorem fdnp_conflict_yields (fdnp : FlexDaemonSetNodePod) (cluster : FdnpCluster)
    (ds : DaemonSet) (p : Pod) (o : OwnerReference)
    (hdel : fdnp.markedForDeletion = false)
    (hds : cluster.ds = some ds)
    (hp : p ∈ cluster.pods)
    (hns : p.inNamespace = fdnp.spec.daemonSetNamespace)
    (hsel : matchesSelector ds.selectorMatchLabels p.labels = true)
    (hnode : p.nodeName = fdnp.spec.nodeName)
    (ho : o ∈ p.ownerReferences)
    (hov : o.apiVersion = appsV1) (hok : o.kind = kindDaemonSet)
    (hon : o.name = ds.name) :
    (FlexDaemonSetNodePodReconcile fdnp cluster).phase = PhaseConflict ∧
    FdnpEffect.deleteSelf ∈ (FlexDaemonSetNodePodReconcile fdnp cluster).effects ∧
    ∀ q, FdnpEffect.createPod q ∉ (FlexDaemonSetNodePodReconcile fdnp cluster).effects := by
  have hmem : p ∈ podsMatching cluster.pods fdnp.spec.daemonSetNamespace
      ds.selectorMatchLabels := by
    rw [podsMatching]
    exact List.mem_filter.mpr ⟨hp, by simp [hns, hsel]⟩
  have hpred : conflictsWith fdnp ds p = true := by
    rw [conflictsWith]
    simp only [Bool.and_eq_true, beq_iff_eq, List.any_eq_true]
    exact ⟨hnode, o, ho, by simp [hov, hok, hon]⟩
  have hfind : ((podsMatching cluster.pods fdnp.spec.daemonSetNamespace
      ds.selectorMatchLabels).find? (fun q => conflictsWith fdnp ds q)).isSome := by
    rw [List.find?_isSome]
    exact ⟨p, hmem, hpred⟩
  obtain ⟨q, hq⟩ := Option.isSome_iff_exists.mp hfind
  have hH : FlexDaemonSetNodePodReconcile fdnp cluster =
      ⟨PhaseConflict, false, false, [.deleteSelf]⟩ := by
    simp [FlexDaemonSetNodePodReconcile, hdel, hds, hq]
  rw [hH]
  refine ⟨rfl, by simp, ?_⟩
  intro q'
  simp

/-- C1 (witness): a concrete conflict — a genuine DaemonSet pod on node `n1`
makes the reconcile of the FDNP for `n1` delete it with the conflict phase. -/
theorem fdnp_conflict_yields_witness :
    (FlexDaemonSetNodePodReconcile
        ⟨"s", "ns", 5, [], [], [], false,
          ⟨"ds", "ns", "n1", 1, ⟨⟨none, none, none⟩, ⟨none, none, none⟩⟩⟩⟩
        ⟨some ⟨"ds", "ns", 9, 3, [], [("app", "x")],
            ⟨[], [], [], [], [], false, "Always"⟩⟩,
          [{ name := "ds-abc", inNamespace := "ns", labels := [("app", "x")],
             annots := [], ownerReferences := [⟨appsV1, kindDaemonSet, "ds", 9⟩],
             nodeName := "n1", containers := [], initContainers := [],
             tolerations := [], hasAffinity := false,
             restartPolicy := "Always" }]⟩).phase = PhaseConflict ∧
    FdnpEffect.deleteSelf ∈ (FlexDaemonSetNodePodReconcile
        ⟨"s", "ns", 5, [], [], [], false,
          ⟨"ds", "ns", "n1", 1, ⟨⟨none, none, none⟩, ⟨none, none, none⟩⟩⟩⟩
        ⟨some ⟨"ds", "ns", 9, 3, [], [("app", "x")],
            ⟨[], [], [], [], [], false, "Always"⟩⟩,
          [{ name := "ds-abc", inNamespace := "ns", labels := [("app", "x")],
             annots := [], ownerReferences := [⟨appsV1, kindDaemonSet, "ds", 9⟩],
             nodeName := "n1", containers := [], initContainers := [],
             tolerations := [], hasAffinity := false,
             restartPolicy := "Always" }]⟩).effects ∧
    ∀ q, FdnpEffect.createPod q ∉ (FlexDaemonSetNodePodReconcile
        ⟨"s", "ns", 5, [], [], [], false,
          ⟨"ds", "ns", "n1", 1, ⟨⟨none, none, none⟩, ⟨none, none, none⟩⟩⟩⟩
        ⟨some ⟨"ds", "ns", 9, 3, [], [("app", "x")],
            ⟨[], [], [], [], [], false, "Always"⟩⟩,
          [{ name := "ds-abc", inNamespace := "ns", labels := [("app", "x")],
             annots := [], ownerReferences := [⟨appsV1, kindDaemonSet, "ds", 9⟩],
             nodeName := "n1", containers := [], initContainers := [],
             tolerations := [], hasAffinity := false,
             restartPolicy := "Always" }]⟩).effects :=
  fdnp_conflict_yields _ _
    ⟨"ds", "ns", 9, 3, [], [("app", "x")], ⟨[], [], [], [], [], false, "Always"⟩⟩
    { name := "ds-abc", inNamespace := "ns", labels := [("app", "x")],
      annots := [], ownerReferences := [⟨appsV1, kindDaemonSet, "ds", 9⟩],
      nodeName := "n1", containers := [], initContainers := [],
      tolerations := [], hasAffinity := false, restartPolicy := "Always" }
    ⟨appsV1, kindDaemonSet, "ds", 9⟩
    rfl rfl (by simp) rfl (by decide) rfl (by simp) rfl rfl rfl
/-! ## Claim C2 -/

/-- C2 (counterexample): the managed pod exists and carries an owner
reference with the FDNP UID, yet — because a genuine DaemonSet pod also sits
on the node — the reconcile takes the conflict path first: the phase becomes
the conflict phase, not Active. -/
theorem fdnp_active_claim_false :
    (podGet
        [{ name := "s-pod", inNamespace := "ns", labels := [], annots := [],
           ownerReferences := [⟨"flexdaemonsets.xai/v1alpha1",
             "FlexDaemonSetNodePod", "s", 5⟩],
           nodeName := "n1", containers := [], initContainers := [],
           tolerations := [], hasAffinity := false, restartPolicy := "Always" },
         { name := "ds-abc", inNamespace := "ns", labels := [("app", "x")],
           annots := [], ownerReferences := [⟨appsV1, kindDaemonSet, "ds", 9⟩],
           nodeName := "n1", containers := [], initContainers := [],
           tolerations := [], hasAffinity := false, restartPolicy := "Always" }]
        (generateManagedPodName
          ⟨"s", "ns", 5, [], [], [], false,
            ⟨"ds", "ns", "n1", 1, ⟨⟨none, none, none⟩, ⟨none, none, none⟩⟩⟩⟩)
        "ns" =
      some ({ name := "s-pod", inNamespace := "ns", labels := [], annots := [],
              ownerReferences := [⟨"flexdaemonsets.xai/v1alpha1",
                "FlexDaemonSetNodePod", "s", 5⟩],
              nodeName := "n1", containers := [], initContainers := [],
              tolerations := [], hasAffinity := false,
              restartPolicy := "Always" } : Pod)) ∧
    (FlexDaemonSetNodePodReconcile
        ⟨"s", "ns", 5, [], [], [], false,
          ⟨"ds", "ns", "n1", 1, ⟨⟨none, none, none⟩, ⟨none, none, none⟩⟩⟩⟩
        ⟨some ⟨"ds", "ns", 9, 3, [], [("app", "x")],
            ⟨[], [], [], [], [], false, "Always"⟩⟩,
          [{ name := "s-pod", inNamespace := "ns", labels := [], annots := [],
             ownerReferences := [⟨"flexdaemonsets.xai/v1alpha1",
               "FlexDaemonSetNodePod", "s", 5⟩],
             nodeName := "n1", containers := [], initContainers := [],
             tolerations := [], hasAffinity := false, restartPolicy := "Always" },
           { name := "ds-abc", inNamespace := "ns", labels := [("app", "x")],
             annots := [], ownerReferences := [⟨appsV1, kindDaemonSet, "ds", 9⟩],
             nodeName := "n1", containers := [], initContainers := [],
             tolerations := [], hasAffinity := false,
             restartPolicy := "Always" }]⟩).phase ≠ PhaseActive := by
  constructor
  · rfl
  · decide

/-- C2 (amended): whenever the deterministically named managed pod exists in
the FDNP namespace, the reconcile issues no pod creation — unconditionally;
and provided additionally that the FDNP is not marked for deletion, its
DaemonSet is found, and no genuine DaemonSet-owned pod conflicts on its
node, the phase becomes Active with no effects when some owner reference of
the pod matches the FDNP UID, and Failed with a requeue and no effects (in
particular the foreign pod is not deleted) otherwise. -/
theorem fdnp_no_second_pod (fdnp : FlexDaemonSetNodePod) (cluster : FdnpCluster)
    (mp : Pod)
    (hpod : podGet cluster.pods (generateManagedPodName fdnp) fdnp.inNamespace =
      some mp) :
    (∀ q, FdnpEffect.createPod q ∉
      (FlexDaemonSetNodePodReconcile fdnp cluster).effects) ∧
    (∀ ds, fdnp.markedForDeletion = false → cluster.ds = some ds →
      (∀ p ∈ cluster.pods, conflictsWith fdnp ds p = false) →
      ((mp.ownerReferences.any (fun o => o.uid == fdnp.uid) = true →
        FlexDaemonSetNodePodReconcile fdnp cluster =
          ⟨PhaseActive, false, false, []⟩) ∧
       (mp.ownerReferences.any (fun o => o.uid == fdnp.uid) = false →
        FlexDaemonSetNodePodReconcile fdnp cluster =
          ⟨PhaseFailed, true, false, []⟩))) := by
  constructor
  · intro q
    cases hdel : fdnp.markedForDeletion with
    | true => simp [FlexDaemonSetNodePodReconcile, hdel]
    | false =>
      cases hds : cluster.ds with
      | none => simp [FlexDaemonSetNodePodReconcile, hdel, hds]
      | some ds =>
        cases hfind : (podsMatching cluster.pods fdnp.spec.daemonSetNamespace
            ds.selectorMatchLabels).find? (fun p => conflictsWith fdnp ds p) with
        | some c => simp [FlexDaemonSetNodePodReconcile, hdel, hds, hfind]
        | none =>
          by_cases hown : mp.ownerReferences.any (fun o => o.uid == fdnp.uid) = true
          · simp [FlexDaemonSetNodePodReconcile, hdel, hds, hfind, hpod, hown]
          · simp [FlexDaemonSetNodePodReconcile, hdel, hds, hfind, hpod, hown]
  · intro ds hdel hds hconf
    have hfind : (podsMatching cluster.pods fdnp.spec.daemonSetNamespace
        ds.selectorMatchLabels).find? (fun p => conflictsWith fdnp ds p) = none := by
      rw [List.find?_eq_none]
      intro x hx
      have hx' : x ∈ cluster.pods := by
        rw [podsMatching] at hx
        exact (List.mem_filter.mp hx).1
      simp [hconf x hx']
    constructor
    · intro hown
      simp [FlexDaemonSetNodePodReconcile, hdel, hds, hfind, hpod, hown]
    · intro hown
      simp [FlexDaemonSetNodePodReconcile, hdel, hds, hfind, hpod, hown]

/-- C2 (witness): with only the owned managed pod in the store, the reconcile
creates nothing and reports Active. -/
theorem fdnp_no_second_pod_witness :
    (∀ q, FdnpEffect.createPod q ∉
      (FlexDaemonSetNodePodReconcile
        ⟨"s", "ns", 5, [], [], [], false,
          ⟨"ds", "ns", "n1", 1, ⟨⟨none, none, none⟩, ⟨none, none, none⟩⟩⟩⟩
        ⟨some ⟨"ds", "ns", 9, 3, [], [("app", "x")],
            ⟨[], [], [], [], [], false, "Always"⟩⟩,
          [{ name := "s-pod", inNamespace := "ns", labels := [], annots := [],
             ownerReferences := [⟨"flexdaemonsets.xai/v1alpha1",
               "FlexDaemonSetNodePod", "s", 5⟩],
             nodeName := "n1", containers := [], initContainers := [],
             tolerations := [], hasAffinity := false,
             restartPolicy := "Always" }]⟩).effects) ∧
    (∀ ds, (false : Bool) = false →
      (some ⟨"ds", "ns", 9, 3, [], [("app", "x")],
          ⟨[], [], [], [], [], false, "Always"⟩⟩ :
        Option DaemonSet) = some ds →
      (∀ p ∈ [{ name := "s-pod", inNamespace := "ns", labels := [],
                annots := [],
                ownerReferences := [⟨"flexdaemonsets.xai/v1alpha1",
                  "FlexDaemonSetNodePod", "s", 5⟩],
                nodeName := "n1", containers := [], initContainers := [],
                tolerations := [], hasAffinity := false,
                restartPolicy := "Always" }],
        conflictsWith
          ⟨"s", "ns", 5, [], [], [], false,
            ⟨"ds", "ns", "n1", 1, ⟨⟨none, none, none⟩, ⟨none, none, none⟩⟩⟩⟩
          ds p = false) →
      (((
        { name := "s-pod", inNamespace := "ns", labels := [], annots := [],
          ownerReferences := [⟨"flexdaemonsets.xai/v1alpha1",
            "FlexDaemonSetNodePod", "s", 5⟩],
          nodeName := "n1", containers := [], initContainers := [],
          tolerations := [], hasAffinity := false,
          restartPolicy := "Always" } : Pod).ownerReferences.any
            (fun o => o.uid == 5) = true →
        FlexDaemonSetNodePodReconcile
          ⟨"s", "ns", 5, [], [], [], false,
            ⟨"ds", "ns", "n1", 1, ⟨⟨none, none, none⟩, ⟨none, none, none⟩⟩⟩⟩
          ⟨some ⟨"ds", "ns", 9, 3, [], [("app", "x")],
              ⟨[], [], [], [], [], false, "Always"⟩⟩,
            [{ name := "s-pod", inNamespace := "ns", labels := [], annots := [],
               ownerReferences := [⟨"flexdaemonsets.xai/v1alpha1",
                 "FlexDaemonSetNodePod", "s", 5⟩],
               nodeName := "n1", containers := [], initContainers := [],
               tolerations := [], hasAffinity := false,
               restartPolicy := "Always" }]⟩ =
          ⟨PhaseActive, false, false, []⟩) ∧
       ((
        { name := "s-pod", inNamespace := "ns", labels := [], annots := [],
          ownerReferences := [⟨"flexdaemonsets.xai/v1alpha1",
            "FlexDaemonSetNodePod", "s", 5⟩],
          nodeName := "n1", containers := [], initContainers := [],
          tolerations := [], hasAffinity := false,
          restartPolicy := "Always" } : Pod).ownerReferences.any
            (fun o => o.uid == 5) = false →
        FlexDaemonSetNodePodReconcile
          ⟨"s", "ns", 5, [], [], [], false,
            ⟨"ds", "ns", "n1", 1, ⟨⟨none, none, none⟩, ⟨none, none, none⟩⟩⟩⟩
          ⟨some ⟨"ds", "ns", 9, 3, [], [("app", "x")],
              ⟨[], [], [], [], [], false, "Always"⟩⟩,
            [{ name := "s-pod", inNamespace := "ns", labels := [], annots := [],
               ownerReferences := [⟨"flexdaemonsets.xai/v1alpha1",
                 "FlexDaemonSetNodePod", "s", 5⟩],
               nodeName := "n1", containers := [], initContainers := [],
               tolerations := [], hasAffinity := false,
               restartPolicy := "Always" }]⟩ =
          ⟨PhaseFailed, true, false, []⟩))) :=
  fdnp_no_second_pod _ _ _ rfl
/-! ## Claim C10 -/

/-- C10: the shadow pod built by `constructPodForFlexDaemonSetNodePod`
carries exactly the managed-by and owner-CR identifying labels plus the
FDNP's own labels (which never overwrite those two) — the DaemonSet pod
template's labels are not consulted — and whenever the resulting labels do
not satisfy the DaemonSet's selector, the shadow pod contributes nothing to
the covered-node set of the coverage pass. -/
theorem construct_pod_label_rule (fdnp : FlexDaemonSetNodePod) (ds : DaemonSet) :
    (∀ k, KVMap.get (constructPodForFlexDaemonSetNodePod fdnp ds).labels k =
      if k = LabelManagedBy then some FlexDaemonSetNodePodControllerName
      else if k = LabelOwnerCR then some fdnp.name
      else KVMap.get fdnp.labels k) ∧
    (matchesSelector ds.selectorMatchLabels
        (constructPodForFlexDaemonSetNodePod fdnp ds).labels = false →
      ∀ pods, coveredNodeNames (podsMatching
          (constructPodForFlexDaemonSetNodePod fdnp ds :: pods)
          ds.inNamespace ds.selectorMatchLabels) =
        coveredNodeNames (podsMatching pods ds.inNamespace ds.selectorMatchLabels)) := by
  constructor
  · intro k
    have hlbl : (constructPodForFlexDaemonSetNodePod fdnp ds).labels =
        fdnp.labels.foldl (fun m kv => KVMap.insertIfAbsent m kv.fst kv.snd)
          (KVMap.insert (KVMap.insert [] LabelManagedBy
            FlexDaemonSetNodePodControllerName) LabelOwnerCR fdnp.name) := rfl
    rw [hlbl, KVMap.get_foldl_insertIfAbsent, KVMap.get_insert, KVMap.get_insert]
    by_cases h1 : k = LabelManagedBy
    · subst h1
      rw [if_neg (by decide), if_pos rfl, if_pos rfl]
    · by_cases h2 : k = LabelOwnerCR
      · subst h2
        rw [if_pos rfl, if_neg h1, if_pos rfl]
      · rw [if_neg (fun hh => h2 hh.symm), if_neg (fun hh => h1 hh.symm),
          if_neg h1, if_neg h2]
        cases KVMap.get fdnp.labels k <;> simp [KVMap.get]
  · intro hmatch pods
    have hfil : podsMatching
        (constructPodForFlexDaemonSetNodePod fdnp ds :: pods)
        ds.inNamespace ds.selectorMatchLabels =
        podsMatching pods ds.inNamespace ds.selectorMatchLabels := by
      rw [podsMatching, podsMatching, List.filter_cons]
      simp [hmatch]
    rw [hfil]

/-- C10 (witness): on a concrete FDNP carrying one label of its own, the
shadow pod's labels are exactly the two identifying labels plus that one,
and the pod does not cover its node for a disjoint selector. -/
theorem construct_pod_label_rule_witness :
    KVMap.get (constructPodForFlexDaemonSetNodePod
        ⟨"s", "ns", 5, [("team", "a")], [], [], false,
          ⟨"ds", "ns", "n1", 1, ⟨⟨none, none, none⟩, ⟨none, none, none⟩⟩⟩⟩
        ⟨"ds", "ns", 9, 3, [], [("app", "x")],
          ⟨[("app", "x")], [], [], [], [], false, "Always"⟩⟩).labels "app" =
      (if "app" = LabelManagedBy then some FlexDaemonSetNodePodControllerName
       else if "app" = LabelOwnerCR then some "s"
       else KVMap.get [("team", "a")] "app") :=
  (construct_pod_label_rule
    ⟨"s", "ns", 5, [("team", "a")], [], [], false,
      ⟨"ds", "ns", "n1", 1, ⟨⟨none, none, none⟩, ⟨none, none, none⟩⟩⟩⟩
    ⟨"ds", "ns", 9, 3, [], [("app", "x")],
      ⟨[("app", "x")], [], [], [], [], false, "Always"⟩⟩).1 "app"
theorem string_append_left_cancel (s x y : String) (h : s ++ x = s ++ y) : x = y := by
  have hd := congrArg String.data h
  simp only [String.data_append] at hd
  have h2 := List.append_cancel_left hd
  cases x with
  | mk dx =>
  cases y with
  | mk dy =>
  exact congrArg String.mk h2

theorem fdnpGet_some_matches (l : List FlexDaemonSetNodePod) (nm ns : String)
    (e : FlexDaemonSetNodePod) (h : fdnpGet l nm ns = some e) :
    e.name = nm ∧ e.inNamespace = ns := by
  induction l with
  | nil => cases h
  | cons g rest ih =>
    rw [fdnpGet] at h
    split at h
    · cases h
      assumption
    · exact ih h

theorem fdnpGet_append_single (l : List FlexDaemonSetNodePod)
    (f : FlexDaemonSetNodePod) (nm ns : String) :
    fdnpGet (l ++ [f]) nm ns = (fdnpGet l nm ns).or (fdnpGet [f] nm ns) := by
  induction l with
  | nil => simp [fdnpGet]
  | cons g rest ih =>
    rw [List.cons_append, fdnpGet, fdnpGet]
    split
    · rfl
    · exact ih

theorem fdnpGet_fdnpPut_ne (l : List FlexDaemonSetNodePod)
    (f : FlexDaemonSetNodePod) (nm ns : String) (hne : f.name ≠ nm) :
    fdnpGet (fdnpPut l f) nm ns = fdnpGet l nm ns := by
  induction l with
  | nil => rfl
  | cons g rest ih =>
    rw [fdnpPut, List.map_cons]
    by_cases hg : g.name = f.name ∧ g.inNamespace = f.inNamespace
    · rw [if_pos hg, fdnpGet, if_neg (fun hc => hne hc.1), fdnpGet,
        if_neg (fun hc => hne (hg.1 ▸ hc.1))]
      rw [fdnpPut] at ih
      exact ih
    · rw [if_neg hg, fdnpGet, fdnpGet]
      split
      · rfl
      · rw [fdnpPut] at ih
        exact ih

theorem fdnpGet_fdnpPut_self (l : List FlexDaemonSetNodePod)
    (e f : FlexDaemonSetNodePod) (nm ns : String)
    (h : fdnpGet l nm ns = some e)
    (hname : f.name = e.name) (hns : f.inNamespace = e.inNamespace) :
    fdnpGet (fdnpPut l f) nm ns = some f := by
  obtain ⟨he1, he2⟩ := fdnpGet_some_matches l nm ns e h
  induction l with
  | nil => cases h
  | cons g rest ih =>
    rw [fdnpGet] at h
    rw [fdnpPut, List.map_cons]
    split at h
    · have hge : g = e := Option.some.inj h
      subst hge
      rw [if_pos ⟨hname.symm, hns.symm⟩, fdnpGet,
        if_pos ⟨hname.trans he1, hns.trans he2⟩]
    · by_cases hg : g.name = f.name ∧ g.inNamespace = f.inNamespace
      · rw [if_pos hg, fdnpGet, if_pos ⟨hname.trans he1, hns.trans he2⟩]
      · rw [if_neg hg, fdnpGet]
        rw [if_neg (by assumption)]
        rw [fdnpPut] at ih
        exact ih h
theorem coverageNodeStep_hit_create (ds : DaemonSet)
    (tmpl : FlexDaemonsetTemplateSpec) (covered : List String)
    (acc : List FlexDaemonSetNodePod × List CoverageEffect) (node : Node)
    (rl : ResourceList)
    (hsched : isNodeSchedulable node = true)
    (hcov : ¬ node.name ∈ covered)
    (hcalc : CalculatePodResources tmpl node.allocatable = .ok rl)
    (hget : fdnpGet acc.1 (ds.name ++ "-" ++ node.name) ds.inNamespace = none) :
    coverageNodeStep ds tmpl covered acc node =
      (acc.1 ++ [desiredFdnp ds node ⟨rl, rl⟩],
        acc.2 ++ [.created (ds.name ++ "-" ++ node.name)]) := by
  simp [coverageNodeStep, hsched, hcov, hcalc, hget]

theorem coverageNodeStep_hit_update (ds : DaemonSet)
    (tmpl : FlexDaemonsetTemplateSpec) (covered : List String)
    (acc : List FlexDaemonSetNodePod × List CoverageEffect) (node : Node)
    (rl : ResourceList) (e : FlexDaemonSetNodePod)
    (hsched : isNodeSchedulable node = true)
    (hcov : ¬ node.name ∈ covered)
    (hcalc : CalculatePodResources tmpl node.allocatable = .ok rl)
    (hget : fdnpGet acc.1 (ds.name ++ "-" ++ node.name) ds.inNamespace = some e)
    (hdrift : e.spec.observedDaemonSetTemplateGeneration ≠ ds.generation ∨
      e.spec.resources ≠ ⟨rl, rl⟩) :
    coverageNodeStep ds tmpl covered acc node =
      (fdnpPut acc.1
        { e with
          ownerReferences := [dsControllerRef ds]
          spec :=
            { e.spec with
              observedDaemonSetTemplateGeneration := ds.generation
              resources := ⟨rl, rl⟩ } },
        acc.2 ++ [.updated (ds.name ++ "-" ++ node.name)]) := by
  simp [coverageNodeStep, hsched, hcov, hcalc, hget, hdrift]

theorem coverageNodeStep_hit_skip (ds : DaemonSet)
    (tmpl : FlexDaemonsetTemplateSpec) (covered : List String)
    (acc : List FlexDaemonSetNodePod × List CoverageEffect) (node : Node)
    (rl : ResourceList) (e : FlexDaemonSetNodePod)
    (hsched : isNodeSchedulable node = true)
    (hcov : ¬ node.name ∈ covered)
    (hcalc : CalculatePodResources tmpl node.allocatable = .ok rl)
    (hget : fdnpGet acc.1 (ds.name ++ "-" ++ node.name) ds.inNamespace = some e)
    (hgen : e.spec.observedDaemonSetTemplateGeneration = ds.generation)
    (hres : e.spec.resources = ⟨rl, rl⟩) :
    coverageNodeStep ds tmpl covered acc node = acc := by
  simp [coverageNodeStep, hsched, hcov, hcalc, hget, hgen, hres]

theorem coverageNodeStep_skip_unsched (ds : DaemonSet)
    (tmpl : FlexDaemonsetTemplateSpec) (covered : List String)
    (acc : List FlexDaemonSetNodePod × List CoverageEffect) (node : Node)
    (hsched : isNodeSchedulable node = false) :
    coverageNodeStep ds tmpl covered acc node = acc := by
  simp [coverageNodeStep, hsched]

theorem coverageNodeStep_skip_covered (ds : DaemonSet)
    (tmpl : FlexDaemonsetTemplateSpec) (covered : List String)
    (acc : List FlexDaemonSetNodePod × List CoverageEffect) (node : Node)
    (hcov : node.name ∈ covered) :
    coverageNodeStep ds tmpl covered acc node = acc := by
  rw [coverageNodeStep]
  split
  · rfl
  · rw [if_pos (by simpa using hcov)]

theorem coverageNodeStep_skip_errcalc (ds : DaemonSet)
    (tmpl : FlexDaemonsetTemplateSpec) (covered : List String)
    (acc : List FlexDaemonSetNodePod × List CoverageEffect) (node : Node)
    (hcalc : CalculatePodResources tmpl node.allocatable = .error ()) :
    coverageNodeStep ds tmpl covered acc node = acc := by
  rw [coverageNodeStep]
  split
  · rfl
  · split
    · rfl
    · rw [hcalc]

theorem coverageNodeStep_frame (ds : DaemonSet) (tmpl : FlexDaemonsetTemplateSpec)
    (covered : List String) (acc : List FlexDaemonSetNodePod × List CoverageEffect)
    (n : Node) (nm : String) (hne : ds.name ++ "-" ++ n.name ≠ nm) :
    fdnpGet (coverageNodeStep ds tmpl covered acc n).1 nm ds.inNamespace =
      fdnpGet acc.1 nm ds.inNamespace ∧
    (CoverageEffect.created nm ∈ (coverageNodeStep ds tmpl covered acc n).2 ↔
      CoverageEffect.created nm ∈ acc.2) ∧
    (CoverageEffect.updated nm ∈ (coverageNodeStep ds tmpl covered acc n).2 ↔
      CoverageEffect.updated nm ∈ acc.2) := by
  by_cases hs : isNodeSchedulable n = true
  case neg =>
    have hs' : isNodeSchedulable n = false := by
      cases hgot : isNodeSchedulable n
      · rfl
      · exact absurd hgot hs
    rw [coverageNodeStep_skip_unsched ds tmpl covered acc n hs']
    exact ⟨rfl, Iff.rfl, Iff.rfl⟩
  case pos =>
  by_cases hcv : n.name ∈ covered
  case pos =>
    rw [coverageNodeStep_skip_covered ds tmpl covered acc n hcv]
    exact ⟨rfl, Iff.rfl, Iff.rfl⟩
  case neg =>
  cases hc : CalculatePodResources tmpl n.allocatable with
  | error e =>
    cases e
    rw [coverageNodeStep_skip_errcalc ds tmpl covered acc n hc]
    exact ⟨rfl, Iff.rfl, Iff.rfl⟩
  | ok rl =>
    cases hg : fdnpGet acc.1 (ds.name ++ "-" ++ n.name) ds.inNamespace with
    | none =>
      rw [coverageNodeStep_hit_create ds tmpl covered acc n rl hs hcv hc hg]
      refine ⟨?_, by simp [hne, Ne.symm hne], by simp⟩
      rw [fdnpGet_append_single]
      have hnone : fdnpGet [desiredFdnp ds n ⟨rl, rl⟩] nm ds.inNamespace = none := by
        rw [fdnpGet, if_neg (fun hcon => hne hcon.1)]
        rfl
      rw [hnone, Option.or_none]
    | some existing =>
      by_cases hdr : existing.spec.observedDaemonSetTemplateGeneration ≠ ds.generation ∨
          existing.spec.resources ≠ (⟨rl, rl⟩ : ResourceRequirements)
      case pos =>
        rw [coverageNodeStep_hit_update ds tmpl covered acc n rl existing hs hcv hc hg hdr]
        have hex := fdnpGet_some_matches _ _ _ _ hg
        refine ⟨?_, by simp [hne, Ne.symm hne], by simp [hne, Ne.symm hne]⟩
        apply fdnpGet_fdnpPut_ne
        intro hcon
        exact hne (hex.1 ▸ hcon)
      case neg =>
        push_neg at hdr
        rw [coverageNodeStep_hit_skip ds tmpl covered acc n rl existing hs hcv hc hg
          hdr.1 hdr.2]
        exact ⟨rfl, Iff.rfl, Iff.rfl⟩

theorem coverageFold_frame (ds : DaemonSet) (tmpl : FlexDaemonsetTemplateSpec)
    (covered : List String) (l : List Node) (nm : String)
    (hne : ∀ n ∈ l, ds.name ++ "-" ++ n.name ≠ nm) :
    ∀ acc,
    fdnpGet (l.foldl (coverageNodeStep ds tmpl covered) acc).1 nm ds.inNamespace =
      fdnpGet acc.1 nm ds.inNamespace ∧
    (CoverageEffect.created nm ∈ (l.foldl (coverageNodeStep ds tmpl covered) acc).2 ↔
      CoverageEffect.created nm ∈ acc.2) ∧
    (CoverageEffect.updated nm ∈ (l.foldl (coverageNodeStep ds tmpl covered) acc).2 ↔
      CoverageEffect.updated nm ∈ acc.2) := by
  induction l with
  | nil => intro acc; exact ⟨rfl, Iff.rfl, Iff.rfl⟩
  | cons n rest ih =>
    intro acc
    rw [List.foldl_cons]
    obtain ⟨hs1, hs2, hs3⟩ :=
      coverageNodeStep_frame ds tmpl covered acc n nm (hne n (by simp))
    obtain ⟨hr1, hr2, hr3⟩ := ih (fun x hx => hne x (by simp [hx]))
      (coverageNodeStep ds tmpl covered acc n)
    exact ⟨hr1.trans hs1, hr2.trans hs2, hr3.trans hs3⟩
/-- C4 (amended): for a schedulable node not covered by any selector-matching
pod with a node assignment, with a successful calculation and the other
nodes carrying different names, the coverage pass leaves an FDNP named
DaemonSet-node whose spec has the DaemonSet generation and the calculated
resources as both requests and limits; it is created exactly when absent and
updated exactly when the stored generation or resources drift, carrying the
DaemonSet controller owner reference whenever it was written, and is left
unwritten (stored object unchanged, ownership not re-asserted) otherwise. -/
theorem coverage_upsert (ds : DaemonSet) (tmpl : FlexDaemonsetTemplateSpec)
    (l1 l2 : List Node) (node : Node) (pods : List Pod)
    (store : List FlexDaemonSetNodePod) (tname : String) (rl : ResourceList)
    (hann : KVMap.get ds.annots FlexDaemonsetTemplateAnn = some tname)
    (hsched : isNodeSchedulable node = true)
    (hcov : ¬ node.name ∈ coveredNodeNames
      (podsMatching pods ds.inNamespace ds.selectorMatchLabels))
    (hcalc : CalculatePodResources tmpl node.allocatable = .ok rl)
    (hne1 : ∀ n ∈ l1, n.name ≠ node.name)
    (hne2 : ∀ n ∈ l2, n.name ≠ node.name) :
    ∃ store2 effs,
      reconcileDaemonSetCoverage ds (some tmpl) (l1 ++ node :: l2) pods store =
        some (store2, effs) ∧
      ∃ f, fdnpGet store2 (ds.name ++ "-" ++ node.name) ds.inNamespace = some f ∧
        f.spec.observedDaemonSetTemplateGeneration = ds.generation ∧
        f.spec.resources = ⟨rl, rl⟩ ∧
        (CoverageEffect.created (ds.name ++ "-" ++ node.name) ∈ effs ↔
          fdnpGet store (ds.name ++ "-" ++ node.name) ds.inNamespace = none) ∧
        (CoverageEffect.updated (ds.name ++ "-" ++ node.name) ∈ effs ↔
          ∃ e, fdnpGet store (ds.name ++ "-" ++ node.name) ds.inNamespace = some e ∧
            (e.spec.observedDaemonSetTemplateGeneration ≠ ds.generation ∨
             e.spec.resources ≠ ⟨rl, rl⟩)) ∧
        ((CoverageEffect.created (ds.name ++ "-" ++ node.name) ∈ effs ∨
          CoverageEffect.updated (ds.name ++ "-" ++ node.name) ∈ effs) →
          f.ownerReferences = [dsControllerRef ds]) ∧
        ((CoverageEffect.created (ds.name ++ "-" ++ node.name) ∉ effs ∧
          CoverageEffect.updated (ds.name ++ "-" ++ node.name) ∉ effs) →
          fdnpGet store (ds.name ++ "-" ++ node.name) ds.inNamespace = some f) := by
  have hkey : ∀ n : Node, n.name ≠ node.name →
      ds.name ++ "-" ++ n.name ≠ ds.name ++ "-" ++ node.name := by
    intro n hn hcon
    exact hn (string_append_left_cancel (ds.name ++ "-") n.name node.name hcon)
  have hR : reconcileDaemonSetCoverage ds (some tmpl) (l1 ++ node :: l2) pods store =
      some ((l1 ++ node :: l2).foldl
        (coverageNodeStep ds tmpl
          (coveredNodeNames (podsMatching pods ds.inNamespace ds.selectorMatchLabels)))
        (store, [])) := by
    simp [reconcileDaemonSetCoverage, hann]
  have hfold : (l1 ++ node :: l2).foldl
      (coverageNodeStep ds tmpl
        (coveredNodeNames (podsMatching pods ds.inNamespace ds.selectorMatchLabels)))
      (store, []) =
      l2.foldl (coverageNodeStep ds tmpl
        (coveredNodeNames (podsMatching pods ds.inNamespace ds.selectorMatchLabels)))
        (coverageNodeStep ds tmpl
          (coveredNodeNames (podsMatching pods ds.inNamespace ds.selectorMatchLabels))
          (l1.foldl (coverageNodeStep ds tmpl
            (coveredNodeNames (podsMatching pods ds.inNamespace ds.selectorMatchLabels)))
            (store, [])) node) := by
    rw [List.foldl_append, List.foldl_cons]
  obtain ⟨ha1, ha2, ha3⟩ := coverageFold_frame ds tmpl
    (coveredNodeNames (podsMatching pods ds.inNamespace ds.selectorMatchLabels))
    l1 (ds.name ++ "-" ++ node.name) (fun n hn => hkey n (hne1 n hn)) (store, [])
  have hna2 : CoverageEffect.created (ds.name ++ "-" ++ node.name) ∉
      (l1.foldl (coverageNodeStep ds tmpl
        (coveredNodeNames (podsMatching pods ds.inNamespace ds.selectorMatchLabels)))
        (store, [])).2 := by
    rw [ha2]
    simp
  have hna3 : CoverageEffect.updated (ds.name ++ "-" ++ node.name) ∉
      (l1.foldl (coverageNodeStep ds tmpl
        (coveredNodeNames (podsMatching pods ds.inNamespace ds.selectorMatchLabels)))
        (store, [])).2 := by
    rw [ha3]
    simp
  cases hget : fdnpGet store (ds.name ++ "-" ++ node.name) ds.inNamespace with
  | none =>
    have hget1 : fdnpGet (l1.foldl (coverageNodeStep ds tmpl
        (coveredNodeNames (podsMatching pods ds.inNamespace ds.selectorMatchLabels)))
        (store, [])).1 (ds.name ++ "-" ++ node.name) ds.inNamespace = none := by
      rw [ha1]
      exact hget
    have hstep := coverageNodeStep_hit_create ds tmpl
      (coveredNodeNames (podsMatching pods ds.inNamespace ds.selectorMatchLabels))
      (l1.foldl (coverageNodeStep ds tmpl
        (coveredNodeNames (podsMatching pods ds.inNamespace ds.selectorMatchLabels)))
        (store, [])) node rl hsched hcov hcalc hget1
    obtain ⟨hb1, hb2, hb3⟩ := coverageFold_frame ds tmpl
      (coveredNodeNames (podsMatching pods ds.inNamespace ds.selectorMatchLabels))
      l2 (ds.name ++ "-" ++ node.name) (fun n hn => hkey n (hne2 n hn))
      (coverageNodeStep ds tmpl
        (coveredNodeNames (podsMatching pods ds.inNamespace ds.selectorMatchLabels))
        (l1.foldl (coverageNodeStep ds tmpl
          (coveredNodeNames (podsMatching pods ds.inNamespace ds.selectorMatchLabels)))
          (store, [])) node)
    refine ⟨_, _, by rw [hR, hfold], ?_⟩
    refine ⟨desiredFdnp ds node ⟨rl, rl⟩, ?_, rfl, rfl, ?_, ?_, fun _ => rfl, ?_⟩
    · rw [hb1, hstep]
      rw [fdnpGet_append_single, hget1]
      rw [fdnpGet, if_pos ⟨rfl, rfl⟩]
      rfl
    · rw [hb2, hstep]
      simp [hna2]
    · rw [hb3, hstep]
      simp only [List.mem_append, List.mem_singleton]
      constructor
      · intro hmem
        rcases hmem with hm | hm
        · exact absurd hm hna3
        · cases hm
      · rintro ⟨e, he, -⟩
        simp at he
    · rintro ⟨hA, -⟩
      exfalso
      apply hA
      rw [hb2, hstep]
      simp
  | some e =>
    have hget1 : fdnpGet (l1.foldl (coverageNodeStep ds tmpl
        (coveredNodeNames (podsMatching pods ds.inNamespace ds.selectorMatchLabels)))
        (store, [])).1 (ds.name ++ "-" ++ node.name) ds.inNamespace = some e := by
      rw [ha1]
      exact hget
    by_cases hdr : e.spec.observedDaemonSetTemplateGeneration ≠ ds.generation ∨
        e.spec.resources ≠ (⟨rl, rl⟩ : ResourceRequirements)
    case pos =>
      have hstep := coverageNodeStep_hit_update ds tmpl
        (coveredNodeNames (podsMatching pods ds.inNamespace ds.selectorMatchLabels))
        (l1.foldl (coverageNodeStep ds tmpl
          (coveredNodeNames (podsMatching pods ds.inNamespace ds.selectorMatchLabels)))
          (store, [])) node rl e hsched hcov hcalc hget1 hdr
      obtain ⟨hb1, hb2, hb3⟩ := coverageFold_frame ds tmpl
        (coveredNodeNames (podsMatching pods ds.inNamespace ds.selectorMatchLabels))
        l2 (ds.name ++ "-" ++ node.name) (fun n hn => hkey n (hne2 n hn))
        (coverageNodeStep ds tmpl
          (coveredNodeNames (podsMatching pods ds.inNamespace ds.selectorMatchLabels))
          (l1.foldl (coverageNodeStep ds tmpl
            (coveredNodeNames (podsMatching pods ds.inNamespace ds.selectorMatchLabels)))
            (store, [])) node)
      refine ⟨_, _, by rw [hR, hfold], ?_⟩
      refine ⟨{ e with
          ownerReferences := [dsControllerRef ds]
          spec :=
            { e.spec with
              observedDaemonSetTemplateGeneration := ds.generation
              resources := ⟨rl, rl⟩ } },
        ?_, rfl, rfl, ?_, ?_, fun _ => rfl, ?_⟩
      · rw [hb1, hstep]
        exact fdnpGet_fdnpPut_self _ e _ _ _ hget1 rfl rfl
      · rw [hb2, hstep]
        simp only [List.mem_append, List.mem_singleton]
        constructor
        · intro hmem
          rcases hmem with hm | hm
          · exact absurd hm hna2
          · cases hm
        · intro hnone
          simp at hnone
      · rw [hb3, hstep]
        simp only [List.mem_append, List.mem_singleton]
        constructor
        · intro _
          exact ⟨e, rfl, hdr⟩
        · intro _
          simp
      · rintro ⟨-, hB⟩
        exfalso
        apply hB
        rw [hb3, hstep]
        simp
    case neg =>
      push_neg at hdr
      have hstep := coverageNodeStep_hit_skip ds tmpl
        (coveredNodeNames (podsMatching pods ds.inNamespace ds.selectorMatchLabels))
        (l1.foldl (coverageNodeStep ds tmpl
          (coveredNodeNames (podsMatching pods ds.inNamespace ds.selectorMatchLabels)))
          (store, [])) node rl e hsched hcov hcalc hget1 hdr.1 hdr.2
      obtain ⟨hb1, hb2, hb3⟩ := coverageFold_frame ds tmpl
        (coveredNodeNames (podsMatching pods ds.inNamespace ds.selectorMatchLabels))
        l2 (ds.name ++ "-" ++ node.name) (fun n hn => hkey n (hne2 n hn))
        (coverageNodeStep ds tmpl
          (coveredNodeNames (podsMatching pods ds.inNamespace ds.selectorMatchLabels))
          (l1.foldl (coverageNodeStep ds tmpl
            (coveredNodeNames (podsMatching pods ds.inNamespace ds.selectorMatchLabels)))
            (store, [])) node)
      refine ⟨_, _, by rw [hR, hfold], ?_⟩
      refine ⟨e, ?_, hdr.1, hdr.2, ?_, ?_, ?_, fun _ => rfl⟩
      · rw [hb1, hstep]
        exact hget1
      · rw [hb2, hstep]
        constructor
        · intro hm
          exact absurd hm hna2
        · intro hnone
          simp at hnone
      · rw [hb3, hstep]
        constructor
        · intro hm
          exact absurd hm hna3
        · rintro ⟨e2, he2, hd2⟩
          cases Option.some.inj he2
          rcases hd2 with hx | hx
          · exact absurd hdr.1 hx
          · exact absurd hdr.2 hx
      · intro hm
        exfalso
        rw [hb2, hb3, hstep] at hm
        rcases hm with hm | hm
        · exact hna2 hm
        · exact hna3 hm
/-- C4 (counterexample): a pre-existing FDNP with the matching name,
generation and resources but without the DaemonSet owner reference is left
unwritten by the pass, so the pass does not leave an FDNP owned by the
DaemonSet as the claim requires. -/
theorem coverage_ownership_not_reasserted :
    reconcileDaemonSetCoverage
        ⟨"d", "ns", 7, 3, [(FlexDaemonsetTemplateAnn, "t")], [],
          ⟨[], [], [], [], [], false, "Always"⟩⟩
        (some ⟨10, 1, 1, .unset, .unset, .unset⟩)
        [⟨"n", false, [], ⟨some 2000, none, none⟩⟩] []
        [⟨"d-n", "ns", 42, [], [], [], false,
          ⟨"d", "ns", "n", 3,
            ⟨⟨some 200, none, none⟩, ⟨some 200, none, none⟩⟩⟩⟩] =
      some ([⟨"d-n", "ns", 42, [], [], [], false,
          ⟨"d", "ns", "n", 3,
            ⟨⟨some 200, none, none⟩, ⟨some 200, none, none⟩⟩⟩⟩], []) ∧
    (⟨"d-n", "ns", 42, [], [], [], false,
        ⟨"d", "ns", "n", 3,
          ⟨⟨some 200, none, none⟩, ⟨some 200, none, none⟩⟩⟩⟩ :
      FlexDaemonSetNodePod).ownerReferences ≠
      [dsControllerRef ⟨"d", "ns", 7, 3, [(FlexDaemonsetTemplateAnn, "t")], [],
        ⟨[], [], [], [], [], false, "Always"⟩⟩] := by
  constructor
  · rfl
  · decide

/-- C4 (witness): on an empty store the pass creates the FDNP for the single
uncovered schedulable node. -/
theorem coverage_upsert_witness :
    ∃ store2 effs,
      reconcileDaemonSetCoverage
          ⟨"d", "ns", 7, 3, [(FlexDaemonsetTemplateAnn, "t")], [],
            ⟨[], [], [], [], [], false, "Always"⟩⟩
          (some ⟨10, 1, 1, .unset, .unset, .unset⟩)
          ([] ++ ⟨"n", false, [], ⟨some 2000, none, none⟩⟩ :: []) [] [] =
        some (store2, effs) ∧
      ∃ f, fdnpGet store2 ("d" ++ "-" ++ "n") "ns" = some f ∧
        f.spec.observedDaemonSetTemplateGeneration = 3 ∧
        f.spec.resources = ⟨⟨some 200, none, none⟩, ⟨some 200, none, none⟩⟩ ∧
        (CoverageEffect.created ("d" ++ "-" ++ "n") ∈ effs ↔
          fdnpGet [] ("d" ++ "-" ++ "n") "ns" = none) ∧
        (CoverageEffect.updated ("d" ++ "-" ++ "n") ∈ effs ↔
          ∃ e, fdnpGet [] ("d" ++ "-" ++ "n") "ns" = some e ∧
            (e.spec.observedDaemonSetTemplateGeneration ≠ 3 ∨
             e.spec.resources ≠ ⟨⟨some 200, none, none⟩, ⟨some 200, none, none⟩⟩)) ∧
        ((CoverageEffect.created ("d" ++ "-" ++ "n") ∈ effs ∨
          CoverageEffect.updated ("d" ++ "-" ++ "n") ∈ effs) →
          f.ownerReferences =
            [dsControllerRef ⟨"d", "ns", 7, 3, [(FlexDaemonsetTemplateAnn, "t")], [],
              ⟨[], [], [], [], [], false, "Always"⟩⟩]) ∧
        ((CoverageEffect.created ("d" ++ "-" ++ "n") ∉ effs ∧
          CoverageEffect.updated ("d" ++ "-" ++ "n") ∉ effs) →
          fdnpGet [] ("d" ++ "-" ++ "n") "ns" = some f) :=
  coverage_upsert
    ⟨"d", "ns", 7, 3, [(FlexDaemonsetTemplateAnn, "t")], [],
      ⟨[], [], [], [], [], false, "Always"⟩⟩
    ⟨10, 1, 1, .unset, .unset, .unset⟩ [] []
    ⟨"n", false, [], ⟨some 2000, none, none⟩⟩ [] [] "t"
    ⟨some 200, none, none⟩ rfl rfl (by simp [coveredNodeNames, podsMatching])
    rfl (by simp) (by simp)
end FlexDaemonsets
